import Mathlib

/-!
ESP-NOW unicast handshake: frame codec, peer registry and worker

A shallow embedding of `espnow_unicast_main.c`.

Conventions of the embedding:
* a byte is a natural number below 256, a buffer is a list of bytes, and the
  length argument that travels with a buffer in C is the length of the list;
  a link-layer address is the list of its six bytes;
* 16-bit quantities are natural numbers reduced modulo 65536 where the C
  code would wrap;
* the transport accepts every send (`esp_now_send` returns `ESP_OK`);
* the definitions named after the functions of the source describe the paths
  on which every heap allocation succeeds; the definitions whose names end in
  `_heap` add the heap: the number of free bytes, the allocation tests and
  their failure branches, and the bytes that are never given back;
* of the log output only the error-level lines are kept.
-/

namespace Espnow

/-! ## Declarations of `espnow_example.h` -/

/-- Modelled from the spec: the header `espnow_example.h` that declares the frame type
enumeration is not among the sources; the wire layout gives 0 = BROADCAST. -/
def EXAMPLE_ESPNOW_DATA_BROADCAST : Nat := 0

/-- Modelled from the spec: the header `espnow_example.h` is not among the sources; the
wire layout gives 1 = UNICAST. -/
def EXAMPLE_ESPNOW_DATA_UNICAST : Nat := 1

/-- Modelled from the spec: `sizeof(example_espnow_data_t)`, the fixed header of the
packed frame structure declared in the missing `espnow_example.h`: one byte of type,
two of sequence number, two of checksum; the payload starts at offset 5. -/
def sizeof_example_espnow_data_t : Nat := 5

/-- The broadcast address `s_example_broadcast_mac`. -/
def s_example_broadcast_mac : List Nat := [0xFF, 0xFF, 0xFF, 0xFF, 0xFF, 0xFF]

/-- Modelled from the spec: the test `IS_BROADCAST_ADDR` of the missing `espnow_example.h`,
a comparison of the six address bytes with `s_example_broadcast_mac`. -/
def IS_BROADCAST_ADDR (addr : List Nat) : Bool :=
  addr == s_example_broadcast_mac

/-! ## The checksum routine of the platform -/

/-- One bit of the reflected CRC-16 division by the polynomial `0x8408`. -/
def crc16_le_round (x : Nat) : Nat :=
  if x % 2 = 1 then (x / 2) ^^^ 0x8408 else x / 2

/-- Entry `i` of the platform's 256-entry table `crc16_le_table`: eight division rounds. -/
def crc16_le_table (i : Nat) : Nat :=
  crc16_le_round^[8] i

/-- One table-driven step of the checksum loop,
`crc = crc16_le_table[(crc ^ buf[i]) & 0xff] ^ (crc >> 8)`. -/
def crc16_le_step (crc b : Nat) : Nat :=
  crc16_le_table ((crc ^^^ b) % 256) ^^^ (crc / 256)

/-- The routine `esp_crc16_le(crc, buf, len)` of the platform ROM library, which is outside
the repository: the 16-bit state is complemented, every byte of the buffer goes through the
table step, and the state is complemented again. -/
def esp_crc16_le (crc : Nat) (buf : List Nat) : Nat :=
  0xFFFF - buf.foldl crc16_le_step (0xFFFF - crc % 65536)

/-! ## Frame codec -/

/-- The two counters `s_example_espnow_seq[EXAMPLE_ESPNOW_DATA_MAX]`, indexed by frame type. -/
structure SeqCounters where
  bcast : Nat
  ucast : Nat
deriving DecidableEq, Repr

/-- Initial value `{ 0, 0 }` of `s_example_espnow_seq`. -/
def s_example_espnow_seq : SeqCounters := ⟨0, 0⟩

/-- Read `s_example_espnow_seq[type]`. -/
def SeqCounters.get (s : SeqCounters) (type : Nat) : Nat :=
  if type = EXAMPLE_ESPNOW_DATA_BROADCAST then s.bcast else s.ucast

/-- The post-increment `s_example_espnow_seq[type]++` on a 16-bit counter. -/
def SeqCounters.incr (s : SeqCounters) (type : Nat) : SeqCounters :=
  if type = EXAMPLE_ESPNOW_DATA_BROADCAST then { s with bcast := (s.bcast + 1) % 65536 }
  else { s with ucast := (s.ucast + 1) % 65536 }

/-- The send request `example_espnow_send_param_t`: destination address and frame buffer;
`len` is the length of the buffer. -/
structure SendParam where
  dest_mac : List Nat
  buffer : List Nat
deriving DecidableEq, Repr

/-- The field `len` of a send request. -/
def SendParam.len (p : SendParam) : Nat := p.buffer.length

/-- Store a 16-bit value in little-endian byte order at offset `off` of a buffer. -/
def store16 (buf : List Nat) (off v : Nat) : List Nat :=
  (buf.set off (v % 256)).set (off + 1) (v / 256 % 256)

/-- Load the 16-bit little-endian value at offset `off` of a buffer. -/
def load16 (buf : List Nat) (off : Nat) : Nat :=
  buf.getD off 0 + 256 * buf.getD (off + 1) 0

/-- The frame type that `example_espnow_data_prepare` derives from a destination address. -/
def frame_type (dest_mac : List Nat) : Nat :=
  if IS_BROADCAST_ADDR dest_mac then EXAMPLE_ESPNOW_DATA_BROADCAST
  else EXAMPLE_ESPNOW_DATA_UNICAST

/-- The function `example_espnow_data_prepare`: fills the header of the request's buffer in
place. The result is the new counters and the buffer, or `none` when the assertion
`len >= sizeof(example_espnow_data_t)` fails. The checksum routine is a parameter. -/
def example_espnow_data_prepare (crc16 : Nat → List Nat → Nat) (seq : SeqCounters)
    (send_param : SendParam) : Option (SeqCounters × List Nat) :=
  if send_param.len < sizeof_example_espnow_data_t then none
  else
    let type := frame_type send_param.dest_mac
    let buf0 := send_param.buffer.set 0 type
    let buf1 := store16 buf0 1 (seq.get type)
    let seq1 := seq.incr type
    let buf2 := store16 buf1 3 0
    let buf3 := store16 buf2 3 (crc16 0xFFFF buf2 % 65536)
    some (seq1, buf3)

/-- Error-level log lines of the modelled functions: "Receive ESPNOW data too short,
len:%d" and "Malloc payload buffer" of `example_espnow_data_parse`, "Malloc peer information
fail" of `add_peer`, "Malloc send parameter fail" and "Malloc send buffer fail" of the
worker. -/
inductive LogLine where
  | data_too_short (len : Nat)
  | malloc_payload_fail
  | malloc_peer_fail
  | malloc_send_param_fail
  | malloc_send_buffer_fail
deriving DecidableEq, Repr

/-- What a call of `example_espnow_data_parse` leaves behind: the returned `int`, the two
out-parameters (`none` while the call has not written them) and the log lines emitted. -/
structure ParseResult where
  ret : Int
  seq : Option Nat
  payload : Option (List Nat)
  log : List LogLine
deriving DecidableEq, Repr

/-- The function `example_espnow_data_parse`. `payload_len` is a `uint8_t`: it keeps the
low byte of the unsigned difference `data_len - sizeof(example_espnow_data_t)`, which is
`(data_len + 256 - 5) % 256` also when the difference wraps. The checksum routine is a
parameter. -/
def example_espnow_data_parse (crc16 : Nat → List Nat → Nat) (data : List Nat) : ParseResult :=
  let data_len := data.length
  let payload_len := (data_len + 256 - sizeof_example_espnow_data_t) % 256
  if data_len < sizeof_example_espnow_data_t then
    { ret := -1, seq := none, payload := none, log := [LogLine.data_too_short data_len] }
  else
    let seq := load16 data 1
    let payload := (data.drop sizeof_example_espnow_data_t).take payload_len
    let crc := load16 data 3
    let buf := store16 data 3 0
    let crc_cal := crc16 0xFFFF buf % 65536
    if crc_cal = crc then
      { ret := (buf.getD 0 0 : Nat), seq := some seq, payload := some payload, log := [] }
    else
      { ret := -1, seq := some seq, payload := some payload, log := [] }

/-- Consecutive calls of `example_espnow_data_prepare`, one per request in order, each
starting from the counters the previous one left; the result is the final counters and the
frames in order, or `none` when an assertion fails. -/
def prepare_all (crc16 : Nat → List Nat → Nat) :
    SeqCounters → List SendParam → Option (SeqCounters × List (List Nat))
  | seq, [] => some (seq, [])
  | seq, p :: ps =>
    match example_espnow_data_prepare crc16 seq p with
    | none => none
    | some (seq1, f) =>
      match prepare_all crc16 seq1 ps with
      | none => none
      | some (seq2, fs) => some (seq2, f :: fs)

/-! ## Peer registry -/

/-- An entry of the transport's peer list, with the two fields of `esp_now_peer_info_t`
that `add_peer` takes from its arguments; channel, interface and key come from the build
configuration. -/
structure Peer where
  peer_addr : List Nat
  encrypt : Bool
deriving DecidableEq, Repr

/-- The transport's query `esp_now_is_peer_exist`: is there an entry with this address. -/
def esp_now_is_peer_exist (peers : List Peer) (mac_addr : List Nat) : Bool :=
  peers.any (fun p => p.peer_addr == mac_addr)

/-- The transport's `esp_now_add_peer`: the entry joins the peer list. The capacity of the
transport's list is not modelled. -/
def esp_now_add_peer (peers : List Peer) (peer : Peer) : List Peer :=
  peers ++ [peer]

/-- The function `add_peer`. -/
def add_peer (peers : List Peer) (mac_addr : List Nat) (encrypt : Bool) : List Peer :=
  if esp_now_is_peer_exist peers mac_addr = false then
    esp_now_add_peer peers { peer_addr := mac_addr, encrypt := encrypt }
  else peers

/-! ## Worker -/

/-- The string literal `"RTS"` with its terminator, as copied by `memcpy(.., "RTS", 4)`. -/
def RTS : List Nat := [0x52, 0x54, 0x53, 0]

/-- The string literal `"CTS"` with its terminator. -/
def CTS : List Nat := [0x43, 0x54, 0x53, 0]

/-- The string literal `"ACK"` with its terminator. -/
def ACK : List Nat := [0x41, 0x43, 0x4B, 0]

/-- The string literal `"some data"` with its terminator, ten bytes. -/
def some_data : List Nat := [0x73, 0x6F, 0x6D, 0x65, 0x20, 0x64, 0x61, 0x74, 0x61, 0]

/-- The string literal `"add_me"` with its terminator, seven bytes. -/
def add_me : List Nat := [0x61, 0x64, 0x64, 0x5F, 0x6D, 0x65, 0]

/-- The fixed peer address `my_peer` of the worker. -/
def my_peer : List Nat := [0x34, 0x85, 0x18, 0xb9, 0x1b, 0x9c]

/-- The test `strcmp(buf, lit) == 0` of a buffer against a string literal given with its
terminator. `none` stands for a read past the end of the buffer (or of the literal), which
the C library leaves undefined. -/
def strcmp_eq : List Nat → List Nat → Option Bool
  | [], _ => none
  | _ :: _, [] => none
  | a :: p, c :: s => if a ≠ c then some false else if a = 0 then some true else strcmp_eq p s

/-- The bytes of a buffer read as a C string: everything before the first NUL, or `none`
when the buffer holds no NUL. -/
def c_string : List Nat → Option (List Nat)
  | [] => none
  | a :: p => if a = 0 then some [] else (c_string p).map (fun s => a :: s)

/-- What the worker does to the outside. -/
inductive Action where
  | esp_now_send (dest_mac : List Nat) (data : List Nat)
  | xTaskCreate_send_broadcast
  | log (line : LogLine)
deriving DecidableEq, Repr

/-- The sends among a list of actions, in order, as (destination, frame). -/
def sends : List Action → List (List Nat × List Nat)
  | [] => []
  | Action.esp_now_send d f :: rest => (d, f) :: sends rest
  | _ :: rest => sends rest

/-- The state the worker acts on: the transport's peer list and `s_example_espnow_seq`. -/
structure Worker where
  peers : List Peer
  seq : SeqCounters
deriving DecidableEq, Repr

/-- The send sequence every branch of the worker repeats, on the path where both of its
allocations succeed (`send_token_heap` has the allocation tests): a request of length
`sizeof(example_espnow_data_t) + n` whose buffer carries the `n` bytes of the token after
the header, the destination address, `example_espnow_data_prepare`, `esp_now_send`.
The header bytes of the fresh buffer are all overwritten by the prepare step; they are
zero here. The assertion of the prepare step cannot fail on such a request. -/
def send_token (crc16 : Nat → List Nat → Nat) (w : Worker) (dest_mac token : List Nat) :
    Worker × List Action :=
  let send_param : SendParam :=
    { dest_mac := dest_mac
      buffer := List.replicate sizeof_example_espnow_data_t 0 ++ token }
  match example_espnow_data_prepare crc16 w.seq send_param with
  | some (seq1, buf) => ({ w with seq := seq1 }, [Action.esp_now_send dest_mac buf])
  | none => (w, [])

/-- The part of `example_espnow_task` that runs before the event loop; `sender` is the
global flag of that name. -/
def example_espnow_task_start (crc16 : Nat → List Nat → Nat) (sender : Bool) (w : Worker) :
    Worker × List Action :=
  let w1 : Worker := { w with peers := add_peer w.peers my_peer true }
  if sender then send_token crc16 w1 my_peer RTS else (w1, [])

/-- A queued event `example_espnow_event_t`. -/
inductive Event where
  | send_cb (mac_addr : List Nat) (status : Nat)
  | recv_cb (mac_addr : List Nat) (data : List Nat)
deriving DecidableEq, Repr

/-- The case `EXAMPLE_ESPNOW_RECV_CB` of the event loop. `none` stands for undefined
behaviour: a `strcmp` that reads past the payload buffer, or the `free(payload)` that ends
the case when `example_espnow_data_parse` returned before it wrote `payload`, the local
pointer being uninitialised then. -/
def example_espnow_task_recv (crc16 : Nat → List Nat → Nat) (w : Worker)
    (mac_addr data : List Nat) : Option (Worker × List Action) :=
  let r := example_espnow_data_parse crc16 data
  let logged := r.log.map Action.log
  match r.payload with
  | none => none
  | some payload =>
    if r.ret = (EXAMPLE_ESPNOW_DATA_BROADCAST : Nat) then
      let w1 : Worker := { w with peers := add_peer w.peers mac_addr true }
      let out := send_token crc16 w1 mac_addr RTS
      some (out.1, logged ++ out.2)
    else if r.ret = (EXAMPLE_ESPNOW_DATA_UNICAST : Nat) then
      let reply (token : List Nat) : Option (Worker × List Action) :=
        let out := send_token crc16 w mac_addr token
        some (out.1, logged ++ out.2)
      (strcmp_eq payload CTS).bind fun is_cts =>
      if is_cts then reply some_data else
      (strcmp_eq payload ACK).bind fun is_ack =>
      if is_ack then reply RTS else
      (strcmp_eq payload RTS).bind fun is_rts =>
      if is_rts then reply CTS else
      (strcmp_eq payload some_data).bind fun is_data =>
      if is_data then reply ACK else
      some (w, logged)
    else
      some (w, logged)

/-- The case `EXAMPLE_ESPNOW_SEND_CB` of the event loop. -/
def example_espnow_task_send_cb (w : Worker) (mac_addr : List Nat) : Worker × List Action :=
  if esp_now_is_peer_exist w.peers mac_addr = false then
    if IS_BROADCAST_ADDR mac_addr then (w, [Action.xTaskCreate_send_broadcast])
    else (w, [])
  else (w, [])

/-- One turn of the event loop of `example_espnow_task`. -/
def example_espnow_task_step (crc16 : Nat → List Nat → Nat) (w : Worker) :
    Event → Option (Worker × List Action)
  | Event.send_cb mac_addr _ => some (example_espnow_task_send_cb w mac_addr)
  | Event.recv_cb mac_addr data => example_espnow_task_recv crc16 w mac_addr data

/-! ## Two endpoints on a link -/

/-- Two workers A and B and the frame on the link between them; `to_b` tells which way the
frame travels. -/
structure Link where
  a : Worker
  b : Worker
  to_b : Bool
  frame : List Nat
deriving DecidableEq, Repr

/-- Delivery of the frame on the link: the receiving worker handles a receive event whose
source is the address of the other endpoint. The result is the next state of the link
together with everything the receiver did; the next frame on the link is the receiver's
first send, and the link is left empty-handed (`none`) when the receiver sent nothing. -/
def link_deliver (crc16 : Nat → List Nat → Nat) (addr_a addr_b : List Nat) (l : Link) :
    Option (Link × List Action) :=
  if l.to_b then
    match example_espnow_task_step crc16 l.b (Event.recv_cb addr_a l.frame) with
    | some (b1, acts) =>
      match sends acts with
      | (_, f) :: _ => some ({ a := l.a, b := b1, to_b := false, frame := f }, acts)
      | [] => none
    | none => none
  else
    match example_espnow_task_step crc16 l.a (Event.recv_cb addr_b l.frame) with
    | some (a1, acts) =>
      match sends acts with
      | (_, f) :: _ => some ({ a := a1, b := l.b, to_b := true, frame := f }, acts)
      | [] => none
    | none => none

/-- The state of the link after `n` deliveries, and the actions of the last receiver. -/
def link_run (crc16 : Nat → List Nat → Nat) (addr_a addr_b : List Nat) :
    Nat → Link → Option (Link × List Action)
  | 0, l => some (l, [])
  | n + 1, l =>
    match link_run crc16 addr_a addr_b n l with
    | some (l1, _) => link_deliver crc16 addr_a addr_b l1
    | none => none

/-- The link after the startup of both workers: A is the initiating side, B is not, and
A's startup frame is on its way to B. `none` when A sent nothing at startup. -/
def link_start (crc16 : Nat → List Nat → Nat) (wa wb : Worker) : Option Link :=
  let sa := example_espnow_task_start crc16 true wa
  let sb := example_espnow_task_start crc16 false wb
  match sends sa.2 with
  | (_, f) :: _ => some { a := sa.1, b := sb.1, to_b := true, frame := f }
  | [] => none

/-- The token carried by the `n`-th frame of the handshake cycle, counted from the startup
frame of the initiating side. -/
def handshake_token (n : Nat) : List Nat :=
  match n % 4 with
  | 0 => RTS
  | 1 => CTS
  | 2 => some_data
  | _ => ACK

/-! ## Initialisation, the whole worker and the resend task -/

/-- The function `example_espnow_init` as far as it touches the modelled state: the
transport starts with an empty peer list, the broadcast address is registered without
encryption, and the announce request "add_me" for the broadcast address goes through
`example_espnow_data_prepare`. The result is the state the worker is created in and the
request handed to it. -/
def example_espnow_init (crc16 : Nat → List Nat → Nat) : Worker × SendParam :=
  let peers := add_peer [] s_example_broadcast_mac false
  let send_param : SendParam :=
    { dest_mac := s_example_broadcast_mac
      buffer := List.replicate sizeof_example_espnow_data_t 0 ++ add_me }
  match example_espnow_data_prepare crc16 s_example_espnow_seq send_param with
  | some (seq1, buf) =>
    ({ peers := peers, seq := seq1 }, { dest_mac := s_example_broadcast_mac, buffer := buf })
  | none => ({ peers := peers, seq := s_example_espnow_seq }, send_param)

/-- The task `send_broadcast` after its delay: `example_espnow_data_prepare` on the request
it was created with, then `esp_now_send`, then the task deletes itself. `none` when the
assertion of the prepare step fails. -/
def send_broadcast (crc16 : Nat → List Nat → Nat) (w : Worker) (send_param : SendParam) :
    Option (Worker × List Action) :=
  match example_espnow_data_prepare crc16 w.seq send_param with
  | none => none
  | some (seq1, buf) =>
    some ({ w with seq := seq1 }, [Action.esp_now_send send_param.dest_mac buf])

/-! ## The worker on a finite heap -/

/-- Sizes in bytes of the two structures the worker allocates whose declarations are
outside the sources: `sizeof(example_espnow_send_param_t)` of the missing
`espnow_example.h` and `sizeof(esp_now_peer_info_t)` of the transport. -/
structure Sizes where
  send_param : Nat
  peer_info : Nat
deriving DecidableEq, Repr

/-- How a turn of the worker ends when the heap is finite. The heap is its number of free
bytes: `malloc(n)` fails exactly when fewer than `n` bytes are free, and `free` gives the
bytes back. `continues` carries the worker state, the free bytes and the actions; `ended`
is the task returning or deleting itself after a failed allocation; `undefined` is
undefined behaviour. -/
inductive TaskResult where
  | continues (w : Worker) (heap_free : Nat) (acts : List Action)
  | ended (acts : List Action)
  | undefined
deriving DecidableEq, Repr

/-- The send sequence of the worker with its two allocations: the request
(`malloc(sizeof(example_espnow_send_param_t))`) and the frame buffer
(`malloc(send_param->len)`). When either fails the worker logs and returns. After a send
neither the request nor the buffer is freed. -/
def send_token_heap (crc16 : Nat → List Nat → Nat) (sz : Sizes) (w : Worker)
    (heap_free : Nat) (dest_mac token : List Nat) : TaskResult :=
  let len := sizeof_example_espnow_data_t + token.length
  if heap_free < sz.send_param then
    TaskResult.ended [Action.log LogLine.malloc_send_param_fail]
  else if heap_free - sz.send_param < len then
    TaskResult.ended [Action.log LogLine.malloc_send_buffer_fail]
  else
    let out := send_token crc16 w dest_mac token
    TaskResult.continues out.1 (heap_free - sz.send_param - len) out.2

/-- The function `add_peer` with its allocation: a new address needs
`malloc(sizeof(esp_now_peer_info_t))`, freed again before the function returns; when it
fails the task is deleted (`none`). -/
def add_peer_heap (sz : Sizes) (peers : List Peer) (heap_free : Nat) (mac_addr : List Nat)
    (encrypt : Bool) : Option (List Peer) :=
  if esp_now_is_peer_exist peers mac_addr = false ∧ heap_free < sz.peer_info then none
  else some (add_peer peers mac_addr encrypt)

/-- The `free(payload)` that ends the receive case: the bytes of the payload copy are free
again when the worker goes on. -/
def TaskResult.free_payload (payload_len : Nat) : TaskResult → TaskResult
  | TaskResult.continues w heap_free acts =>
    TaskResult.continues w (heap_free + payload_len) acts
  | other => other

/-- A branch on `strcmp(payload, lit) == 0`; the comparison may read past the buffer. -/
def TaskResult.of_strcmp (c : Option Bool) (yes no : TaskResult) : TaskResult :=
  match c with
  | none => TaskResult.undefined
  | some true => yes
  | some false => no

/-- The case `EXAMPLE_ESPNOW_RECV_CB` of the event loop on a finite heap.
`example_espnow_data_parse` allocates the payload copy; when that fails it returns -1 with
`payload` set to NULL, the worker takes its last branch and `free(NULL)` does nothing. The
copy stays allocated while a reply is sent and is freed at the end of the case. -/
def example_espnow_task_recv_heap (crc16 : Nat → List Nat → Nat) (sz : Sizes) (w : Worker)
    (heap_free : Nat) (mac_addr data : List Nat) : TaskResult :=
  let payload_len := (data.length + 256 - sizeof_example_espnow_data_t) % 256
  if data.length < sizeof_example_espnow_data_t then TaskResult.undefined
  else if heap_free < payload_len then
    TaskResult.continues w heap_free [Action.log LogLine.malloc_payload_fail]
  else
    let heap1 := heap_free - payload_len
    let r := example_espnow_data_parse crc16 data
    let payload := r.payload.getD []
    if r.ret = (EXAMPLE_ESPNOW_DATA_BROADCAST : Nat) then
      match add_peer_heap sz w.peers heap1 mac_addr true with
      | none => TaskResult.ended [Action.log LogLine.malloc_peer_fail]
      | some peers1 =>
        (send_token_heap crc16 sz { w with peers := peers1 } heap1 mac_addr RTS).free_payload
          payload_len
    else if r.ret = (EXAMPLE_ESPNOW_DATA_UNICAST : Nat) then
      let reply (token : List Nat) : TaskResult :=
        (send_token_heap crc16 sz w heap1 mac_addr token).free_payload payload_len
      TaskResult.of_strcmp (strcmp_eq payload CTS) (reply some_data)
        (TaskResult.of_strcmp (strcmp_eq payload ACK) (reply RTS)
          (TaskResult.of_strcmp (strcmp_eq payload RTS) (reply CTS)
            (TaskResult.of_strcmp (strcmp_eq payload some_data) (reply ACK)
              (TaskResult.continues w heap_free []))))
    else
      TaskResult.continues w heap_free []

/-- Two workers on a link, each with the free bytes of its heap. -/
structure HeapLink where
  link : Link
  heap_a : Nat
  heap_b : Nat
deriving DecidableEq, Repr

/-- Delivery of the frame on the link when the heaps are finite: the next frame on the link
is the receiver's first send; there is none (`none`) when the receiver sent nothing, ended
or ran into undefined behaviour. -/
def link_deliver_heap (crc16 : Nat → List Nat → Nat) (sz : Sizes) (addr_a addr_b : List Nat)
    (l : HeapLink) : Option HeapLink :=
  if l.link.to_b then
    match example_espnow_task_recv_heap crc16 sz l.link.b l.heap_b addr_a l.link.frame with
    | TaskResult.continues b1 h1 acts =>
      match sends acts with
      | (_, f) :: _ =>
        some { link := { a := l.link.a, b := b1, to_b := false, frame := f },
               heap_a := l.heap_a, heap_b := h1 }
      | [] => none
    | _ => none
  else
    match example_espnow_task_recv_heap crc16 sz l.link.a l.heap_a addr_b l.link.frame with
    | TaskResult.continues a1 h1 acts =>
      match sends acts with
      | (_, f) :: _ =>
        some { link := { a := a1, b := l.link.b, to_b := true, frame := f },
               heap_a := h1, heap_b := l.heap_b }
      | [] => none
    | _ => none

/-- The link after `n` deliveries on finite heaps, or `none` when the frames have stopped. -/
def link_run_heap (crc16 : Nat → List Nat → Nat) (sz : Sizes) (addr_a addr_b : List Nat) :
    Nat → HeapLink → Option HeapLink
  | 0, l => some l
  | n + 1, l =>
    match link_run_heap crc16 sz addr_a addr_b n l with
    | some l1 => link_deliver_heap crc16 sz addr_a addr_b l1
    | none => none

/-! ## Facts about the checksum routine -/

/-- A buffer that holds a header splits into its five header bytes and the payload. -/
theorem exists_header_of_le (buf : List Nat) (h : sizeof_example_espnow_data_t ≤ buf.length) :
    ∃ a b c d e rest, buf = a :: b :: c :: d :: e :: rest := by
  match buf, h with
  | a :: b :: c :: d :: e :: rest, _ => exact ⟨a, b, c, d, e, rest, rfl⟩

/-- A 16-bit value is recovered from its two little-endian bytes. -/
theorem le_bytes_eq (v : Nat) : v % 256 + 256 * (v / 256 % 256) = v % 65536 := by
  omega

/-- The frame built by `example_espnow_data_prepare`, written out byte by byte. -/
theorem prepare_eq (crc16 : Nat → List Nat → Nat) (seq : SeqCounters) (dest : List Nat)
    (a b c d e : Nat) (rest : List Nat) :
    example_espnow_data_prepare crc16 seq ⟨dest, a :: b :: c :: d :: e :: rest⟩ =
      some (seq.incr (frame_type dest),
        frame_type dest :: seq.get (frame_type dest) % 256 ::
          seq.get (frame_type dest) / 256 % 256 ::
          (crc16 0xFFFF (frame_type dest :: seq.get (frame_type dest) % 256 ::
            seq.get (frame_type dest) / 256 % 256 :: 0 :: 0 :: rest) % 65536) % 256 ::
          (crc16 0xFFFF (frame_type dest :: seq.get (frame_type dest) % 256 ::
            seq.get (frame_type dest) / 256 % 256 :: 0 :: 0 :: rest) % 65536) / 256 % 256 ::
          rest) := by
  simp [example_espnow_data_prepare, SendParam.len, sizeof_example_espnow_data_t, store16]

/-- The outcome of `example_espnow_data_parse` on a buffer that holds a header. -/
theorem parse_eq (crc16 : Nat → List Nat → Nat) (a b c d e : Nat) (rest : List Nat) :
    example_espnow_data_parse crc16 (a :: b :: c :: d :: e :: rest) =
      if crc16 0xFFFF (a :: b :: c :: 0 :: 0 :: rest) % 65536 = d + 256 * e then
        { ret := (a : Nat), seq := some (b + 256 * c),
          payload := some (rest.take (rest.length % 256)), log := [] }
      else
        { ret := -1, seq := some (b + 256 * c),
          payload := some (rest.take (rest.length % 256)), log := [] } := by
  have hlen : (rest.length + 1 + 1 + 1 + 1 + 1 + 256 - 5) % 256 = rest.length % 256 := by
    omega
  have hge : ¬ (rest.length + 1 + 1 + 1 + 1 + 1 < 5) := by omega
  simp only [example_espnow_data_parse, sizeof_example_espnow_data_t, List.length_cons,
    if_neg hge, hlen]
  simp [store16, load16]

/-- Decoding what was encoded: type, sequence number modulo 65536, and the first
`(len - 5) % 256` bytes of the payload. -/
theorem parse_prepare (crc16 : Nat → List Nat → Nat) (seq : SeqCounters) (p : SendParam)
    (h : sizeof_example_espnow_data_t ≤ p.len) :
    ∃ frame, example_espnow_data_prepare crc16 seq p
        = some (seq.incr (frame_type p.dest_mac), frame) ∧
      example_espnow_data_parse crc16 frame =
        { ret := (frame_type p.dest_mac : Nat),
          seq := some (seq.get (frame_type p.dest_mac) % 65536),
          payload := some ((p.buffer.drop sizeof_example_espnow_data_t).take
            ((p.len - sizeof_example_espnow_data_t) % 256)),
          log := [] } := by
  obtain ⟨dest, buf⟩ := p
  obtain ⟨a, b, c, d, e, rest, rfl⟩ := exists_header_of_le buf h
  refine ⟨_, prepare_eq crc16 seq dest a b c d e rest, ?_⟩
  rw [parse_eq]
  simp [le_bytes_eq, SendParam.len, sizeof_example_espnow_data_t]

/-- The frame type derived from an address is one of the two declared types. -/
theorem frame_type_cases (dest : List Nat) :
    (IS_BROADCAST_ADDR dest = true ∧ frame_type dest = EXAMPLE_ESPNOW_DATA_BROADCAST) ∨
    (IS_BROADCAST_ADDR dest = false ∧ frame_type dest = EXAMPLE_ESPNOW_DATA_UNICAST) := by
  unfold frame_type
  cases IS_BROADCAST_ADDR dest <;> simp

/-- Layout of the frame built by `example_espnow_data_prepare`. -/
theorem prepare_layout (crc16 : Nat → List Nat → Nat) (seq : SeqCounters) (p : SendParam)
    (h : sizeof_example_espnow_data_t ≤ p.len) :
    ∃ frame, example_espnow_data_prepare crc16 seq p
        = some (seq.incr (frame_type p.dest_mac), frame) ∧
      frame.length = p.len ∧
      frame.getD 0 0 = frame_type p.dest_mac ∧
      frame.getD 1 0 = seq.get (frame_type p.dest_mac) % 256 ∧
      frame.getD 2 0 = seq.get (frame_type p.dest_mac) / 256 % 256 ∧
      frame.getD 3 0 = (crc16 0xFFFF (store16 frame 3 0) % 65536) % 256 ∧
      frame.getD 4 0 = (crc16 0xFFFF (store16 frame 3 0) % 65536) / 256 % 256 ∧
      frame.drop sizeof_example_espnow_data_t = p.buffer.drop sizeof_example_espnow_data_t := by
  obtain ⟨dest, buf⟩ := p
  obtain ⟨a, b, c, d, e, rest, rfl⟩ := exists_header_of_le buf h
  refine ⟨_, prepare_eq crc16 seq dest a b c d e rest, ?_⟩
  simp [SendParam.len, sizeof_example_espnow_data_t, store16]

/-! ## Claims about the frame codec -/

/-- C10: for every request whose buffer holds a header, `example_espnow_data_prepare`
returns a frame of the same length whose byte 0 is the type (0 for the broadcast address,
1 otherwise), whose bytes 1-2 are the pre-increment counter of that type in little-endian,
whose bytes 3-4 are in little-endian the 16-bit checksum of the frame with bytes 3-4 set to
zero, and whose bytes from offset 5 on are those of the request. -/
theorem prepare_frame_layout (crc16 : Nat → List Nat → Nat) (seq : SeqCounters)
    (p : SendParam) (h : sizeof_example_espnow_data_t ≤ p.len) :
    ∃ seq1 frame, example_espnow_data_prepare crc16 seq p = some (seq1, frame) ∧
      frame.length = p.len ∧
      frame.getD 0 0 = (if IS_BROADCAST_ADDR p.dest_mac then 0 else 1) ∧
      frame.getD 1 0 = seq.get (frame.getD 0 0) % 256 ∧
      frame.getD 2 0 = seq.get (frame.getD 0 0) / 256 % 256 ∧
      load16 frame 1 = seq.get (frame.getD 0 0) % 65536 ∧
      frame.getD 3 0 = (crc16 0xFFFF (store16 frame 3 0) % 65536) % 256 ∧
      frame.getD 4 0 = (crc16 0xFFFF (store16 frame 3 0) % 65536) / 256 % 256 ∧
      load16 frame 3 = crc16 0xFFFF (store16 frame 3 0) % 65536 ∧
      frame.drop 5 = p.buffer.drop 5 := by
  obtain ⟨frame, hp, hlen, h0, h1, h2, h3, h4, hrest⟩ := prepare_layout crc16 seq p h
  refine ⟨_, frame, hp, hlen, ?_, ?_, ?_, ?_, h3, h4, ?_, hrest⟩
  · rw [h0]; rfl
  · rw [h0]; exact h1
  · rw [h0]; exact h2
  · rw [h0]; unfold load16; rw [h1, h2]; exact le_bytes_eq _
  · unfold load16; rw [h3, h4]
    rw [le_bytes_eq, Nat.mod_mod]

/-- Witness of C10: the ten-byte data request for `my_peer`. -/
theorem prepare_frame_layout_witness :
    ∃ seq1 frame, example_espnow_data_prepare esp_crc16_le ⟨1, 2⟩
        ⟨my_peer, List.replicate 5 0 ++ some_data⟩ = some (seq1, frame) ∧
      frame.length = (SendParam.mk my_peer (List.replicate 5 0 ++ some_data)).len ∧
      frame.getD 0 0 = (if IS_BROADCAST_ADDR my_peer then 0 else 1) ∧
      frame.getD 1 0 = (SeqCounters.mk 1 2).get (frame.getD 0 0) % 256 ∧
      frame.getD 2 0 = (SeqCounters.mk 1 2).get (frame.getD 0 0) / 256 % 256 ∧
      load16 frame 1 = (SeqCounters.mk 1 2).get (frame.getD 0 0) % 65536 ∧
      frame.getD 3 0 = (esp_crc16_le 0xFFFF (store16 frame 3 0) % 65536) % 256 ∧
      frame.getD 4 0 = (esp_crc16_le 0xFFFF (store16 frame 3 0) % 65536) / 256 % 256 ∧
      load16 frame 3 = esp_crc16_le 0xFFFF (store16 frame 3 0) % 65536 ∧
      frame.drop 5 = (List.replicate 5 0 ++ some_data).drop 5 :=
  prepare_frame_layout esp_crc16_le ⟨1, 2⟩ ⟨my_peer, List.replicate 5 0 ++ some_data⟩
    (by decide)

/-- An input that holds a header reaches the checksum comparison: nothing is logged, the
sequence number is written, and -1 is returned exactly when the checksums differ. -/
theorem parse_of_header (crc16 : Nat → List Nat → Nat) (long : List Nat)
    (hlong : sizeof_example_espnow_data_t ≤ long.length) :
    (example_espnow_data_parse crc16 long).log = [] ∧
    (example_espnow_data_parse crc16 long).seq = some (load16 long 1) ∧
    ((example_espnow_data_parse crc16 long).ret = -1 ↔
      crc16 0xFFFF (store16 long 3 0) % 65536 ≠ load16 long 3) := by
  have hge : ¬ (long.length < sizeof_example_espnow_data_t) := by omega
  simp only [example_espnow_data_parse, if_neg hge]
  by_cases hc : crc16 0xFFFF (store16 long 3 0) % 65536 = load16 long 3
  · simp only [if_pos hc]
    refine ⟨trivial, trivial, ?_⟩
    constructor
    · intro hret
      exact absurd hret (by omega)
    · intro hne
      exact absurd hc hne
  · simp [if_neg hc, hc]

set_option maxRecDepth 20000 in
/-- C3 (as stated, refuted): a too-short input and a frame whose stored checksum differs
from the recomputed one get the same return value from `example_espnow_data_parse`, so the
returned error does not tell the two apart. -/
theorem too_short_returns_same_value_as_mismatch :
    ([1, 0, 0] : List Nat).length < sizeof_example_espnow_data_t ∧
    sizeof_example_espnow_data_t ≤ ([1, 0, 0, 0, 0, 0x52] : List Nat).length ∧
    esp_crc16_le 0xFFFF (store16 [1, 0, 0, 0, 0, 0x52] 3 0) % 65536
      ≠ load16 [1, 0, 0, 0, 0, 0x52] 3 ∧
    (example_espnow_data_parse esp_crc16_le [1, 0, 0]).ret
      = (example_espnow_data_parse esp_crc16_le [1, 0, 0, 0, 0, 0x52]).ret := by
  decide

/-- C3 (amended): on every input shorter than the fixed header, whatever its bytes and
whatever the checksum routine, `example_espnow_data_parse` returns -1, the value it also
returns on a checksum mismatch, with the too-short line logged and neither out-parameter
written; the result depends on the length alone, so no checksum is computed or compared.
An input that reaches the comparison logs nothing and has both out-parameters written. -/
theorem short_frame_rejected (crc16 : Nat → List Nat → Nat) (data : List Nat)
    (h : data.length < sizeof_example_espnow_data_t) :
    example_espnow_data_parse crc16 data =
      { ret := -1, seq := none, payload := none,
        log := [LogLine.data_too_short data.length] } ∧
    (∀ (crc16' : Nat → List Nat → Nat) (data' : List Nat), data'.length = data.length →
      example_espnow_data_parse crc16' data' = example_espnow_data_parse crc16 data) ∧
    (∀ long : List Nat, sizeof_example_espnow_data_t ≤ long.length →
      (example_espnow_data_parse crc16 long).log = [] ∧
      (example_espnow_data_parse crc16 long).seq = some (load16 long 1) ∧
      ((example_espnow_data_parse crc16 long).ret = -1 ↔
        crc16 0xFFFF (store16 long 3 0) % 65536 ≠ load16 long 3)) := by
  refine ⟨?_, ?_, ?_⟩
  · simp [example_espnow_data_parse, h]
  · intro crc16' data' hlen
    simp [example_espnow_data_parse, h, hlen]
  · intro long hlong
    exact parse_of_header crc16 long hlong

/-- Witness of C3 (amended): an input of three bytes. -/
theorem short_frame_rejected_witness :
    example_espnow_data_parse esp_crc16_le [1, 0, 0] =
      { ret := -1, seq := none, payload := none,
        log := [LogLine.data_too_short ([1, 0, 0] : List Nat).length] } ∧
    (∀ (crc16' : Nat → List Nat → Nat) (data' : List Nat),
      data'.length = ([1, 0, 0] : List Nat).length →
      example_espnow_data_parse crc16' data' = example_espnow_data_parse esp_crc16_le [1, 0, 0]) ∧
    (∀ long : List Nat, sizeof_example_espnow_data_t ≤ long.length →
      (example_espnow_data_parse esp_crc16_le long).log = [] ∧
      (example_espnow_data_parse esp_crc16_le long).seq = some (load16 long 1) ∧
      ((example_espnow_data_parse esp_crc16_le long).ret = -1 ↔
        esp_crc16_le 0xFFFF (store16 long 3 0) % 65536 ≠ load16 long 3)) :=
  short_frame_rejected esp_crc16_le [1, 0, 0] (by decide)

/-- The counter read after an increment: one more (modulo 65536) for the incremented
type, unchanged for the other type. -/
theorem get_incr (seq : SeqCounters) (d d' : List Nat) :
    (seq.incr (frame_type d)).get (frame_type d') =
      if frame_type d = frame_type d' then (seq.get (frame_type d') + 1) % 65536
      else seq.get (frame_type d') := by
  rcases frame_type_cases d with h | h <;> rcases frame_type_cases d' with h' | h' <;>
    simp [h.2, h'.2, SeqCounters.incr, SeqCounters.get, EXAMPLE_ESPNOW_DATA_BROADCAST,
      EXAMPLE_ESPNOW_DATA_UNICAST]

/-- Consecutive encodes from any counters: each frame carries the start value of the
counter of its type plus the number of earlier requests of that type, modulo 65536. -/
theorem prepare_all_spec (crc16 : Nat → List Nat → Nat) (ps : List SendParam)
    (seq : SeqCounters) (hlen : ∀ p ∈ ps, sizeof_example_espnow_data_t ≤ p.len) :
    ∃ seqN frames, prepare_all crc16 seq ps = some (seqN, frames) ∧
      frames.length = ps.length ∧
      ∀ k (hk : k < ps.length),
        (frames.getD k []).getD 0 0 = frame_type ps[k].dest_mac ∧
        load16 (frames.getD k []) 1 =
          (seq.get (frame_type ps[k].dest_mac) + (ps.take k).countP
            (fun q => decide (frame_type q.dest_mac = frame_type ps[k].dest_mac))) % 65536 := by
  induction ps generalizing seq with
  | nil => exact ⟨seq, [], rfl, rfl, fun k hk => absurd hk (by simp)⟩
  | cons p ps ih =>
    obtain ⟨f, hp, _, h0, h1, h2, _⟩ := prepare_layout crc16 seq p (hlen p (by simp))
    obtain ⟨seqN, fs, hall, hfl, hfs⟩ := ih (seq.incr (frame_type p.dest_mac))
      (fun q hq => hlen q (by simp [hq]))
    refine ⟨seqN, f :: fs, by simp [prepare_all, hp, hall], by simp [hfl], ?_⟩
    intro k hk
    match k, hk with
    | 0, _ =>
      simp only [List.getD_cons_zero, List.getElem_cons_zero, List.take_zero,
        List.countP_nil, Nat.add_zero]
      refine ⟨h0, ?_⟩
      unfold load16
      rw [h1, h2]
      exact le_bytes_eq _
    | k + 1, hk =>
      have hk' : k < ps.length := by simpa using hk
      obtain ⟨ht, hseq⟩ := hfs k hk'
      simp only [List.getD_cons_succ, List.getElem_cons_succ, List.take_succ_cons,
        List.countP_cons]
      refine ⟨ht, ?_⟩
      rw [hseq, get_incr]
      by_cases hT : frame_type p.dest_mac = frame_type ps[k].dest_mac
      · simp only [hT, if_true, decide_True]
        omega
      · simp only [hT, if_false, decide_False]
        simp

/-- C4: starting from the initial counters, consecutive calls of
`example_espnow_data_prepare` in any interleaving of the two types give every frame the
number of earlier requests of its own type, modulo 65536, as sequence number; hence N
requests of one type carry 0, 1, ..., N-1 modulo 65536; and one encode leaves the counter
of the other type unchanged. -/
theorem sequence_monotonic (crc16 : Nat → List Nat → Nat) (ps : List SendParam)
    (hlen : ∀ p ∈ ps, sizeof_example_espnow_data_t ≤ p.len) :
    (∃ seqN frames, prepare_all crc16 s_example_espnow_seq ps = some (seqN, frames) ∧
      frames.length = ps.length ∧
      (∀ k (hk : k < ps.length),
        load16 (frames.getD k []) 1 = (ps.take k).countP
          (fun q => decide (frame_type q.dest_mac = frame_type ps[k].dest_mac)) % 65536) ∧
      ((∀ p ∈ ps, ∀ q ∈ ps, frame_type p.dest_mac = frame_type q.dest_mac) →
        ∀ k, k < ps.length → load16 (frames.getD k []) 1 = k % 65536)) ∧
    (∀ (seq : SeqCounters) (p : SendParam), sizeof_example_espnow_data_t ≤ p.len →
      ∃ seq1 frame, example_espnow_data_prepare crc16 seq p = some (seq1, frame) ∧
        (IS_BROADCAST_ADDR p.dest_mac = true →
          seq1.bcast = (seq.bcast + 1) % 65536 ∧ seq1.ucast = seq.ucast) ∧
        (IS_BROADCAST_ADDR p.dest_mac = false →
          seq1.ucast = (seq.ucast + 1) % 65536 ∧ seq1.bcast = seq.bcast)) := by
  constructor
  · obtain ⟨seqN, frames, hall, hfl, hk⟩ := prepare_all_spec crc16 ps s_example_espnow_seq hlen
    have hzero : ∀ t, s_example_espnow_seq.get t = 0 := by
      intro t
      unfold SeqCounters.get s_example_espnow_seq
      split <;> rfl
    refine ⟨seqN, frames, hall, hfl, ?_, ?_⟩
    · intro k hlt
      rw [(hk k hlt).2, hzero, Nat.zero_add]
    · intro hsame k hlt
      rw [(hk k hlt).2, hzero, Nat.zero_add]
      have hall : (ps.take k).countP
          (fun q => decide (frame_type q.dest_mac = frame_type ps[k].dest_mac))
          = (ps.take k).length := by
        rw [List.countP_eq_length]
        intro q hq
        have hq' : q ∈ ps := List.mem_of_mem_take hq
        simpa using hsame q hq' ps[k] (List.getElem_mem _)
      rw [hall, List.length_take]
      congr 1
      omega
  · intro seq p hp
    obtain ⟨f, hprep, _⟩ := prepare_layout crc16 seq p hp
    refine ⟨_, f, hprep, ?_, ?_⟩
    · intro hb
      simp [frame_type, hb, SeqCounters.incr]
    · intro hb
      simp [frame_type, hb, SeqCounters.incr, EXAMPLE_ESPNOW_DATA_BROADCAST,
        EXAMPLE_ESPNOW_DATA_UNICAST]

/-- Witness of C4: a unicast request, a broadcast request and a second unicast request. -/
theorem sequence_monotonic_witness :
    (∃ seqN frames, prepare_all esp_crc16_le s_example_espnow_seq
        [⟨my_peer, List.replicate 5 0 ++ RTS⟩,
         ⟨s_example_broadcast_mac, List.replicate 5 0 ++ add_me⟩,
         ⟨my_peer, List.replicate 5 0 ++ CTS⟩] = some (seqN, frames) ∧
      load16 (frames.getD 0 []) 1 = 0 ∧
      load16 (frames.getD 1 []) 1 = 0 ∧
      load16 (frames.getD 2 []) 1 = 1) := by
  obtain ⟨⟨seqN, frames, hall, _, hk, _⟩, _⟩ := sequence_monotonic esp_crc16_le
    [⟨my_peer, List.replicate 5 0 ++ RTS⟩,
     ⟨s_example_broadcast_mac, List.replicate 5 0 ++ add_me⟩,
     ⟨my_peer, List.replicate 5 0 ++ CTS⟩] (by decide)
  refine ⟨seqN, frames, hall, ?_, ?_, ?_⟩
  · rw [hk 0 (by decide)]; decide
  · rw [hk 1 (by decide)]; decide
  · rw [hk 2 (by decide)]; decide

/-! ## Claims about the peer registry -/

/-- The transport's query answers whether the address is among the registered ones. -/
theorem esp_now_is_peer_exist_iff (peers : List Peer) (a : List Nat) :
    esp_now_is_peer_exist peers a = true ↔ a ∈ peers.map Peer.peer_addr := by
  simp [esp_now_is_peer_exist, List.any_eq_true]

/-- After `add_peer` the address is registered. -/
theorem esp_now_is_peer_exist_add_peer (peers : List Peer) (a : List Nat) (e : Bool) :
    esp_now_is_peer_exist (add_peer peers a e) a = true := by
  unfold add_peer
  split
  · simp [esp_now_is_peer_exist, esp_now_add_peer]
  · rename_i h
    simpa using h

/-- The function `add_peer` keeps the registered addresses pairwise different. -/
theorem add_peer_nodup (peers : List Peer) (a : List Nat) (e : Bool)
    (h : (peers.map Peer.peer_addr).Nodup) :
    ((add_peer peers a e).map Peer.peer_addr).Nodup := by
  unfold add_peer
  split
  · rename_i hex
    have hnot : a ∉ peers.map Peer.peer_addr := by
      intro hmem
      rw [(esp_now_is_peer_exist_iff peers a).2 hmem] at hex
      exact absurd hex (by decide)
    simp only [esp_now_add_peer, List.map_append, List.map_cons, List.map_nil]
    rw [List.nodup_append]
    refine ⟨h, List.nodup_singleton _, ?_⟩
    intro x hx hx'
    simp only [List.mem_singleton] at hx'
    exact hnot (hx' ▸ hx)
  · exact h

/-- In a registry with pairwise different addresses a registered address has one entry. -/
theorem countP_addr_eq_one (l : List Peer) (a : List Nat)
    (hnd : (l.map Peer.peer_addr).Nodup) (hmem : a ∈ l.map Peer.peer_addr) :
    l.countP (fun p => decide (p.peer_addr = a)) = 1 := by
  induction l with
  | nil => simp at hmem
  | cons p l ih =>
    simp only [List.map_cons, List.nodup_cons] at hnd
    by_cases hp : p.peer_addr = a
    · have hzero : l.countP (fun q => decide (q.peer_addr = a)) = 0 := by
        rw [List.countP_eq_zero]
        intro q hq hqa
        apply hnd.1
        rw [hp]
        simp only [decide_eq_true_eq] at hqa
        exact hqa ▸ List.mem_map_of_mem _ hq
      simp [List.countP_cons, hp, hzero]
    · have hmem' : a ∈ l.map Peer.peer_addr := by
        simp only [List.map_cons, List.mem_cons] at hmem
        rcases hmem with h | h
        · exact absurd h.symm hp
        · exact h
      simp [List.countP_cons, hp, ih hnd.2 hmem']

/-- C9: for every registry, address and flags, a second `add_peer` of the same address
changes nothing; when the address was absent before the first call the registry gains the
one entry carrying the first flag, and that is the only entry for the address; `add_peer`
on a present address leaves the registry unchanged; and pairwise different addresses stay
pairwise different, with exactly one entry for the address after the two calls. -/
theorem registry_idempotent (peers : List Peer) (a : List Nat) (e1 e2 : Bool) :
    add_peer (add_peer peers a e1) a e2 = add_peer peers a e1 ∧
    (esp_now_is_peer_exist peers a = false →
      add_peer (add_peer peers a e1) a e2 = peers ++ [{ peer_addr := a, encrypt := e1 }] ∧
      (add_peer (add_peer peers a e1) a e2).filter (fun p => p.peer_addr == a)
        = [{ peer_addr := a, encrypt := e1 }]) ∧
    (esp_now_is_peer_exist peers a = true → add_peer peers a e1 = peers) ∧
    ((peers.map Peer.peer_addr).Nodup →
      ((add_peer peers a e1).map Peer.peer_addr).Nodup ∧
      ((add_peer (add_peer peers a e1) a e2).map Peer.peer_addr).Nodup ∧
      (add_peer (add_peer peers a e1) a e2).countP (fun p => decide (p.peer_addr = a)) = 1) := by
  have hsecond : add_peer (add_peer peers a e1) a e2 = add_peer peers a e1 := by
    have hnoop : ∀ ps : List Peer, esp_now_is_peer_exist ps a = true →
        add_peer ps a e2 = ps := by
      intro ps h
      simp [add_peer, h]
    exact hnoop _ (esp_now_is_peer_exist_add_peer peers a e1)
  refine ⟨hsecond, ?_, ?_, ?_⟩
  · intro habs
    have hfirst : add_peer peers a e1 = peers ++ [{ peer_addr := a, encrypt := e1 }] := by
      simp [add_peer, habs, esp_now_add_peer]
    rw [hsecond, hfirst]
    refine ⟨rfl, ?_⟩
    have hnone : peers.filter (fun p => p.peer_addr == a) = [] := by
      rw [List.filter_eq_nil_iff]
      intro p hp hpa
      have : esp_now_is_peer_exist peers a = true := by
        unfold esp_now_is_peer_exist
        rw [List.any_eq_true]
        exact ⟨p, hp, hpa⟩
      rw [this] at habs
      exact absurd habs (by decide)
    simp [List.filter_append, hnone]
  · intro hpres
    simp [add_peer, hpres]
  · intro hnd
    have h1 := add_peer_nodup peers a e1 hnd
    refine ⟨h1, by rw [hsecond]; exact h1, ?_⟩
    rw [hsecond]
    exact countP_addr_eq_one _ a h1
      ((esp_now_is_peer_exist_iff _ a).1 (esp_now_is_peer_exist_add_peer peers a e1))

/-- Witness of C9: the registry after initialisation, holding the broadcast address, and
two registrations of `my_peer` with different flags. -/
theorem registry_idempotent_witness :
    esp_now_is_peer_exist [⟨s_example_broadcast_mac, false⟩] my_peer = false ∧
    (([⟨s_example_broadcast_mac, false⟩] : List Peer).map Peer.peer_addr).Nodup ∧
    add_peer (add_peer [⟨s_example_broadcast_mac, false⟩] my_peer true) my_peer false
      = [⟨s_example_broadcast_mac, false⟩, ⟨my_peer, true⟩] ∧
    (add_peer (add_peer [⟨s_example_broadcast_mac, false⟩] my_peer true) my_peer false).countP
      (fun p => decide (p.peer_addr = my_peer)) = 1 :=
  ⟨by decide, by decide,
    ((registry_idempotent [⟨s_example_broadcast_mac, false⟩] my_peer true false).2.1
      (by decide)).1,
    ((registry_idempotent [⟨s_example_broadcast_mac, false⟩] my_peer true false).2.2.2
      (by decide)).2.2⟩

/-! ## Facts about the worker -/

/-- Log lines are no sends. -/
theorem sends_map_log (ls : List LogLine) : sends (ls.map Action.log) = [] := by
  induction ls with
  | nil => rfl
  | cons l ls ih => simpa [sends] using ih

/-- On buffers that hold a terminator, `strcmp_eq` compares the C strings. -/
theorem strcmp_eq_of_c_string (p lit s t : List Nat) (hp : c_string p = some s)
    (hl : c_string lit = some t) : strcmp_eq p lit = some (decide (s = t)) := by
  induction p generalizing lit s t with
  | nil => simp [c_string] at hp
  | cons a p ih =>
    cases lit with
    | nil => simp [c_string] at hl
    | cons c l =>
      unfold strcmp_eq
      unfold c_string at hp hl
      by_cases ha : a = 0
      · subst ha
        simp only [if_true, Option.some.injEq] at hp
        subst hp
        by_cases hc : c = 0
        · subst hc
          simp only [if_true, Option.some.injEq] at hl
          subst hl
          simp
        · simp only [if_neg hc, Option.map_eq_some'] at hl
          obtain ⟨t', _, rfl⟩ := hl
          have : (0 : Nat) ≠ c := fun h => hc h.symm
          simp [this]
      · simp only [if_neg ha, Option.map_eq_some'] at hp
        obtain ⟨s', hs', rfl⟩ := hp
        by_cases hc : c = 0
        · subst hc
          simp only [if_true, Option.some.injEq] at hl
          subst hl
          simp [ha]
        · simp only [if_neg hc, Option.map_eq_some'] at hl
          obtain ⟨t', ht', rfl⟩ := hl
          by_cases hac : a = c
          · subst hac
            simp only [ne_eq, not_true_eq_false, if_false, if_neg ha]
            rw [ih l s' t' hs' ht']
            simp
          · simp [hac]

/-- What `send_token` does for a token of at most 255 bytes: one send to the destination
of a frame that decodes to the type of the destination, the pre-increment counter of that
type and the token; the counter of that type is incremented, the peers are untouched. -/
theorem send_token_spec (crc16 : Nat → List Nat → Nat) (w : Worker) (dest token : List Nat)
    (htok : token.length ≤ 255) :
    ∃ frame, send_token crc16 w dest token =
        ({ w with seq := w.seq.incr (frame_type dest) }, [Action.esp_now_send dest frame]) ∧
      frame.length = sizeof_example_espnow_data_t + token.length ∧
      example_espnow_data_parse crc16 frame =
        { ret := (frame_type dest : Nat),
          seq := some (w.seq.get (frame_type dest) % 65536),
          payload := some token, log := [] } := by
  have hlen : sizeof_example_espnow_data_t ≤
      (SendParam.mk dest (List.replicate sizeof_example_espnow_data_t 0 ++ token)).len := by
    simp [SendParam.len]
  obtain ⟨frame, hp, hparse⟩ := parse_prepare crc16 w.seq _ hlen
  obtain ⟨frame', hp', hl', _⟩ := prepare_layout crc16 w.seq _ hlen
  have hff : frame' = frame := by
    rw [hp'] at hp
    simpa using hp
  subst hff
  refine ⟨frame', ?_, ?_, ?_⟩
  · simp only [send_token]
    dsimp only at hp
    rw [hp]
  · rw [hl']
    simp [SendParam.len]
  · rw [hparse]
    have h1 : ((SendParam.mk dest (List.replicate sizeof_example_espnow_data_t 0 ++ token)).len
        - sizeof_example_espnow_data_t) % 256 = token.length := by
      simp only [SendParam.len, List.length_append, List.length_replicate,
        Nat.add_sub_cancel_left]
      exact Nat.mod_eq_of_lt (by omega)
    rw [h1]
    simp

/-! ## Claims about the worker -/

/-- A frame that `example_espnow_data_parse` does not reject has its payload written. -/
theorem payload_some_of_ret_ne (crc16 : Nat → List Nat → Nat) (data : List Nat)
    (hret : (example_espnow_data_parse crc16 data).ret ≠ -1) :
    ∃ payload, (example_espnow_data_parse crc16 data).payload = some payload := by
  by_cases hs : data.length < sizeof_example_espnow_data_t
  · exact absurd (by simp [example_espnow_data_parse, hs]) hret
  · simp only [example_espnow_data_parse, if_neg hs]
    split <;> exact ⟨_, rfl⟩

/-- A frame that holds a header and whose stored checksum differs from the recomputed one
is ignored: the receive case ends with the worker state (peer registry and both sequence
counters) unchanged and without any action. -/
theorem checksum_mismatch_ignored (crc16 : Nat → List Nat → Nat) (w : Worker)
    (mac_addr data : List Nat) (hlen : sizeof_example_espnow_data_t ≤ data.length)
    (h : crc16 0xFFFF (store16 data 3 0) % 65536 ≠ load16 data 3) :
    (example_espnow_data_parse crc16 data).ret = -1 ∧
    example_espnow_task_step crc16 w (Event.recv_cb mac_addr data) = some (w, []) := by
  have hs : ¬ data.length < sizeof_example_espnow_data_t := by omega
  have hret : (example_espnow_data_parse crc16 data).ret = -1 :=
    (parse_of_header crc16 data hlen).2.2.2 h
  have hlog : (example_espnow_data_parse crc16 data).log = [] :=
    (parse_of_header crc16 data hlen).1
  have hpay : ∃ payload, (example_espnow_data_parse crc16 data).payload = some payload := by
    simp only [example_espnow_data_parse, if_neg hs]
    split <;> exact ⟨_, rfl⟩
  obtain ⟨payload, hpay⟩ := hpay
  refine ⟨hret, ?_⟩
  simp [example_espnow_task_step, example_espnow_task_recv, hret, hpay, hlog,
    EXAMPLE_ESPNOW_DATA_BROADCAST, EXAMPLE_ESPNOW_DATA_UNICAST]

set_option maxRecDepth 20000 in
/-- Instance of the ignored checksum mismatch: the frame 01 00 00 00 00 52 from `my_peer`,
whose checksum field is zero. -/
theorem checksum_mismatch_ignored_witness :
    (example_espnow_data_parse esp_crc16_le [1, 0, 0, 0, 0, 0x52]).ret = -1 ∧
    example_espnow_task_step esp_crc16_le ⟨[⟨my_peer, true⟩], ⟨1, 4⟩⟩
        (Event.recv_cb my_peer [1, 0, 0, 0, 0, 0x52])
      = some (⟨[⟨my_peer, true⟩], ⟨1, 4⟩⟩, []) :=
  checksum_mismatch_ignored esp_crc16_le ⟨[⟨my_peer, true⟩], ⟨1, 4⟩⟩ my_peer
    [1, 0, 0, 0, 0, 0x52] (by decide) (by decide)

/-- C8 (failing input): on the three-byte frame 01 00 00 `example_espnow_data_parse` logs
the too-short line and returns -1 before it writes either out-parameter, so the pointer
`payload` of the receive case is still uninitialised when the case ends with
`free(payload)`: the outcome of the receive event is undefined, for every worker state and
source address. -/
theorem too_short_frame_frees_unset_payload (w : Worker) (mac_addr : List Nat) :
    example_espnow_data_parse esp_crc16_le [1, 0, 0] =
      { ret := -1, seq := none, payload := none, log := [LogLine.data_too_short 3] } ∧
    example_espnow_task_step esp_crc16_le w (Event.recv_cb mac_addr [1, 0, 0]) = none := by
  have hparse : example_espnow_data_parse esp_crc16_le [1, 0, 0] =
      { ret := -1, seq := none, payload := none, log := [LogLine.data_too_short 3] } := by
    decide
  refine ⟨hparse, ?_⟩
  simp [example_espnow_task_step, example_espnow_task_recv, hparse]

/-- The receive case on a frame accepted as UNICAST whose payload reads as the C string of
one of the four tokens: the reply of the transition table goes through `send_token`. -/
theorem recv_unicast_reply (crc16 : Nat → List Nat → Nat) (w : Worker)
    (mac_addr data payload tok reply : List Nat)
    (hret : (example_espnow_data_parse crc16 data).ret = (EXAMPLE_ESPNOW_DATA_UNICAST : Nat))
    (hpay : (example_espnow_data_parse crc16 data).payload = some payload)
    (htab : (tok, reply) ∈ [(RTS, CTS), (CTS, some_data), (some_data, ACK), (ACK, RTS)])
    (hstr : c_string payload = c_string tok) :
    example_espnow_task_step crc16 w (Event.recv_cb mac_addr data)
      = some (send_token crc16 w mac_addr reply) := by
  have hlog : (example_espnow_data_parse crc16 data).log = [] := by
    by_cases hs : data.length < sizeof_example_espnow_data_t
    · have : (example_espnow_data_parse crc16 data).ret = -1 := by
        simp [example_espnow_data_parse, hs]
      rw [this] at hret
      exact absurd hret (by decide)
    · exact (parse_of_header crc16 data (by omega)).1
  have hne : ¬ (example_espnow_data_parse crc16 data).ret
      = (EXAMPLE_ESPNOW_DATA_BROADCAST : Nat) := by
    rw [hret]; decide
  simp only [example_espnow_task_step, example_espnow_task_recv, if_neg hne, if_pos hret,
    hpay, hlog, Option.getD_some, List.map_nil, List.nil_append]
  simp only [List.mem_cons, Prod.mk.injEq, List.mem_singleton, List.not_mem_nil,
    or_false] at htab
  rcases htab with ⟨rfl, rfl⟩ | ⟨rfl, rfl⟩ | ⟨rfl, rfl⟩ | ⟨rfl, rfl⟩
  · have hs : c_string payload = some [0x52, 0x54, 0x53] := by rw [hstr]; rfl
    rw [strcmp_eq_of_c_string payload CTS _ [0x43, 0x54, 0x53] hs rfl,
      strcmp_eq_of_c_string payload ACK _ [0x41, 0x43, 0x4B] hs rfl,
      strcmp_eq_of_c_string payload RTS _ [0x52, 0x54, 0x53] hs rfl]
    simp
  · have hs : c_string payload = some [0x43, 0x54, 0x53] := by rw [hstr]; rfl
    rw [strcmp_eq_of_c_string payload CTS _ [0x43, 0x54, 0x53] hs rfl]
    simp
  · have hs : c_string payload = some [0x73, 0x6F, 0x6D, 0x65, 0x20, 0x64, 0x61, 0x74, 0x61] := by
      rw [hstr]; rfl
    rw [strcmp_eq_of_c_string payload CTS _ [0x43, 0x54, 0x53] hs rfl,
      strcmp_eq_of_c_string payload ACK _ [0x41, 0x43, 0x4B] hs rfl,
      strcmp_eq_of_c_string payload RTS _ [0x52, 0x54, 0x53] hs rfl,
      strcmp_eq_of_c_string payload some_data _
        [0x73, 0x6F, 0x6D, 0x65, 0x20, 0x64, 0x61, 0x74, 0x61] hs rfl]
    simp
  · have hs : c_string payload = some [0x41, 0x43, 0x4B] := by rw [hstr]; rfl
    rw [strcmp_eq_of_c_string payload CTS _ [0x43, 0x54, 0x53] hs rfl,
      strcmp_eq_of_c_string payload ACK _ [0x41, 0x43, 0x4B] hs rfl]
    simp

/-- The log of a frame that `example_espnow_data_parse` does not reject is empty. -/
theorem log_nil_of_ret_ne (crc16 : Nat → List Nat → Nat) (data : List Nat)
    (hret : (example_espnow_data_parse crc16 data).ret ≠ -1) :
    (example_espnow_data_parse crc16 data).log = [] := by
  by_cases hs : data.length < sizeof_example_espnow_data_t
  · exact absurd (by simp [example_espnow_data_parse, hs]) hret
  · exact (parse_of_header crc16 data (by omega)).1

/-- Consecutive tokens of the handshake cycle form a row of the transition table. -/
theorem handshake_token_succ (n : Nat) :
    (handshake_token n, handshake_token (n + 1))
      ∈ [(RTS, CTS), (CTS, some_data), (some_data, ACK), (ACK, RTS)] := by
  have h : n % 4 = 0 ∨ n % 4 = 1 ∨ n % 4 = 2 ∨ n % 4 = 3 := by omega
  rcases h with h | h | h | h
  · have h' : (n + 1) % 4 = 1 := by omega
    simp [handshake_token, h, h']
  · have h' : (n + 1) % 4 = 2 := by omega
    simp [handshake_token, h, h']
  · have h' : (n + 1) % 4 = 3 := by omega
    simp [handshake_token, h, h']
  · have h' : (n + 1) % 4 = 0 := by omega
    simp [handshake_token, h, h']

/-- A worker that receives, from an address that is not the broadcast address, an accepted
UNICAST frame with the `n`-th token of the cycle answers with one send to that address of an
accepted UNICAST frame with the next token. -/
theorem recv_handshake_token (crc16 : Nat → List Nat → Nat) (w : Worker)
    (src data : List Nat) (n : Nat) (hsrc : IS_BROADCAST_ADDR src = false)
    (hret : (example_espnow_data_parse crc16 data).ret = (EXAMPLE_ESPNOW_DATA_UNICAST : Nat))
    (hpay : (example_espnow_data_parse crc16 data).payload = some (handshake_token n)) :
    ∃ w1 frame, example_espnow_task_step crc16 w (Event.recv_cb src data)
        = some (w1, [Action.esp_now_send src frame]) ∧
      (example_espnow_data_parse crc16 frame).ret = (EXAMPLE_ESPNOW_DATA_UNICAST : Nat) ∧
      (example_espnow_data_parse crc16 frame).payload = some (handshake_token (n + 1)) := by
  have hlen : (handshake_token (n + 1)).length ≤ 255 := by
    have h := handshake_token_succ n
    simp only [List.mem_cons, Prod.mk.injEq, List.mem_singleton, List.not_mem_nil,
      or_false] at h
    rcases h with ⟨_, h⟩ | ⟨_, h⟩ | ⟨_, h⟩ | ⟨_, h⟩ <;> rw [h] <;> decide
  obtain ⟨frame, hsend, _, hparse⟩ := send_token_spec crc16 w src (handshake_token (n + 1)) hlen
  refine ⟨{ w with seq := w.seq.incr (frame_type src) }, frame, ?_, ?_, ?_⟩
  · rw [recv_unicast_reply crc16 w src data _ _ _ hret hpay (handshake_token_succ n) rfl, hsend]
  · rw [hparse]
    simp [frame_type, hsrc]
  · rw [hparse]

/-- One delivery on the link carries the handshake one token further. -/
theorem link_deliver_spec (crc16 : Nat → List Nat → Nat) (addr_a addr_b : List Nat)
    (ha : IS_BROADCAST_ADDR addr_a = false) (hb : IS_BROADCAST_ADDR addr_b = false)
    (l : Link) (n : Nat)
    (hret : (example_espnow_data_parse crc16 l.frame).ret = (EXAMPLE_ESPNOW_DATA_UNICAST : Nat))
    (hpay : (example_espnow_data_parse crc16 l.frame).payload = some (handshake_token n)) :
    ∃ l1, link_deliver crc16 addr_a addr_b l
        = some (l1, [Action.esp_now_send (if l.to_b then addr_a else addr_b) l1.frame]) ∧
      l1.to_b = !l.to_b ∧
      (example_espnow_data_parse crc16 l1.frame).ret = (EXAMPLE_ESPNOW_DATA_UNICAST : Nat) ∧
      (example_espnow_data_parse crc16 l1.frame).payload = some (handshake_token (n + 1)) := by
  by_cases hdir : l.to_b = true
  · obtain ⟨w1, frame, hstep, hr, hp⟩ := recv_handshake_token crc16 l.b addr_a l.frame n ha hret hpay
    refine ⟨{ a := l.a, b := w1, to_b := false, frame := frame }, ?_, ?_, hr, hp⟩
    · simp [link_deliver, hdir, hstep, sends]
    · simp [hdir]
  · have hdir' : l.to_b = false := by simpa using hdir
    obtain ⟨w1, frame, hstep, hr, hp⟩ := recv_handshake_token crc16 l.a addr_b l.frame n hb hret hpay
    refine ⟨{ a := w1, b := l.b, to_b := true, frame := frame }, ?_, ?_, hr, hp⟩
    · simp [link_deliver, hdir', hstep, sends]
    · simp [hdir']

/-- The handshake on the paths where every allocation succeeds: two workers A (initiating
side) and B on a link that hands every sent frame unmodified to the other worker, neither of
them having the broadcast address. A's startup sends one frame to `my_peer`, B's startup
sends none, and for every `n` the link reaches its state after `n` deliveries: the frame
then on the link travels to B when `n` is even and to A when it is odd, the receiver's
decode accepts it as UNICAST with the `n`-th token of the cycle RTS, CTS, "some data", ACK,
and it was produced by the previous receiver as its one and only action, a send to the
address of the other endpoint. -/
theorem handshake_progression (crc16 : Nat → List Nat → Nat) (addr_a addr_b : List Nat)
    (wa wb : Worker) (ha : IS_BROADCAST_ADDR addr_a = false)
    (hb : IS_BROADCAST_ADDR addr_b = false) :
    ∃ l0, link_start crc16 wa wb = some l0 ∧
      (example_espnow_task_start crc16 true wa).2 = [Action.esp_now_send my_peer l0.frame] ∧
      (example_espnow_task_start crc16 false wb).2 = [] ∧
      ∀ n, ∃ l acts, link_run crc16 addr_a addr_b n l0 = some (l, acts) ∧
        l.to_b = decide (n % 2 = 0) ∧
        (example_espnow_data_parse crc16 l.frame).ret = (EXAMPLE_ESPNOW_DATA_UNICAST : Nat) ∧
        (example_espnow_data_parse crc16 l.frame).payload = some (handshake_token n) ∧
        (0 < n →
          acts = [Action.esp_now_send (if n % 2 = 1 then addr_a else addr_b) l.frame]) := by
  obtain ⟨f0, hsend, _, hparse⟩ := send_token_spec crc16
    { wa with peers := add_peer wa.peers my_peer true } my_peer RTS (by decide)
  have hstartA : example_espnow_task_start crc16 true wa
      = ({ peers := add_peer wa.peers my_peer true,
           seq := wa.seq.incr (frame_type my_peer) }, [Action.esp_now_send my_peer f0]) := by
    simp only [example_espnow_task_start, if_true, hsend]
  have hstartB : (example_espnow_task_start crc16 false wb).2 = [] := by
    simp [example_espnow_task_start]
  refine ⟨{ a := (example_espnow_task_start crc16 true wa).1,
            b := (example_espnow_task_start crc16 false wb).1,
            to_b := true, frame := f0 }, ?_, ?_, hstartB, ?_⟩
  · unfold link_start
    rw [hstartA]
    rfl
  · rw [hstartA]
  · intro n
    induction n with
    | zero =>
      refine ⟨_, [], rfl, by simp, ?_, ?_, ?_⟩
      · show (example_espnow_data_parse crc16 f0).ret = _
        rw [hparse]; rfl
      · show (example_espnow_data_parse crc16 f0).payload = _
        rw [hparse]; rfl
      · intro h; exact absurd h (by decide)
    | succ n ih =>
      obtain ⟨l, acts, hrun, hdir, hr, hp, _⟩ := ih
      obtain ⟨l1, hdel, hdir1, hr1, hp1⟩ :=
        link_deliver_spec crc16 addr_a addr_b ha hb l n hr hp
      refine ⟨l1, [Action.esp_now_send (if l.to_b then addr_a else addr_b) l1.frame],
        ?_, ?_, hr1, hp1, ?_⟩
      · simp only [link_run, hrun, hdel]
      · rw [hdir1, hdir]
        have : n % 2 = 0 ∨ n % 2 = 1 := by omega
        rcases this with h | h
        · have h' : (n + 1) % 2 = 1 := by omega
          simp [h, h']
        · have h' : (n + 1) % 2 = 0 := by omega
          simp [h, h']
      · intro _
        have : n % 2 = 0 ∨ n % 2 = 1 := by omega
        rcases this with h | h
        · have h' : (n + 1) % 2 = 1 := by omega
          simp [hdir, h, h']
        · have h' : (n + 1) % 2 = 0 := by omega
          simp [hdir, h, h']

/-- Instance of the handshake: A with the address 02:00:00:00:00:01 and B with `my_peer`,
both in the state that initialisation leaves behind. -/
theorem handshake_progression_witness :
    ∃ l0, link_start esp_crc16_le ⟨[⟨s_example_broadcast_mac, false⟩], ⟨1, 0⟩⟩
        ⟨[⟨s_example_broadcast_mac, false⟩], ⟨1, 0⟩⟩ = some l0 ∧
      ∀ n, ∃ l acts, link_run esp_crc16_le [2, 0, 0, 0, 0, 1] my_peer n l0 = some (l, acts) ∧
        l.to_b = decide (n % 2 = 0) ∧
        (example_espnow_data_parse esp_crc16_le l.frame).ret
          = (EXAMPLE_ESPNOW_DATA_UNICAST : Nat) ∧
        (example_espnow_data_parse esp_crc16_le l.frame).payload = some (handshake_token n) ∧
        (0 < n → acts =
          [Action.esp_now_send (if n % 2 = 1 then [2, 0, 0, 0, 0, 1] else my_peer) l.frame]) := by
  obtain ⟨l0, hstart, _, _, hrun⟩ := handshake_progression esp_crc16_le [2, 0, 0, 0, 0, 1]
    my_peer ⟨[⟨s_example_broadcast_mac, false⟩], ⟨1, 0⟩⟩
    ⟨[⟨s_example_broadcast_mac, false⟩], ⟨1, 0⟩⟩ (by decide) (by decide)
  exact ⟨l0, hstart, hrun⟩

/-! ## Claims about startup, send completion and unrecognised input -/

/-- C12: for every send-completed event, whatever its status, the worker state (peer
registry and both sequence counters) stays as it is and no send is issued; the only possible
action is the creation of the task `send_broadcast`, once, and it happens exactly when the
address is the broadcast address ff:ff:ff:ff:ff:ff and is not a registered peer. That task
is one-shot: run on a request that holds a header it prepares the request and issues one
send to the destination of the request. -/
theorem send_completed_handling (crc16 : Nat → List Nat → Nat) (w : Worker)
    (mac_addr : List Nat) (status : Nat) :
    (∃ acts, example_espnow_task_step crc16 w (Event.send_cb mac_addr status)
        = some (w, acts) ∧
      sends acts = [] ∧
      (acts = [Action.xTaskCreate_send_broadcast] ∨ acts = []) ∧
      (Action.xTaskCreate_send_broadcast ∈ acts ↔
        mac_addr = [0xFF, 0xFF, 0xFF, 0xFF, 0xFF, 0xFF] ∧
          esp_now_is_peer_exist w.peers mac_addr = false)) ∧
    (∀ send_param : SendParam, sizeof_example_espnow_data_t ≤ send_param.len →
      ∃ frame, send_broadcast crc16 w send_param
          = some ({ w with seq := w.seq.incr (frame_type send_param.dest_mac) },
              [Action.esp_now_send send_param.dest_mac frame]) ∧
        frame.length = send_param.len) := by
  constructor
  · have hb : IS_BROADCAST_ADDR mac_addr = true ↔
        mac_addr = [0xFF, 0xFF, 0xFF, 0xFF, 0xFF, 0xFF] := by
      simp [IS_BROADCAST_ADDR, s_example_broadcast_mac]
    simp only [example_espnow_task_step, example_espnow_task_send_cb]
    by_cases hex : esp_now_is_peer_exist w.peers mac_addr = false
    · by_cases hbc : IS_BROADCAST_ADDR mac_addr = true
      · refine ⟨[Action.xTaskCreate_send_broadcast], by simp [hex, hbc], rfl, Or.inl rfl, ?_⟩
        simp only [List.mem_singleton, true_iff]
        exact ⟨hb.1 hbc, hex⟩
      · refine ⟨[], by simp [hex, hbc], rfl, Or.inr rfl, ?_⟩
        simp only [List.not_mem_nil, false_iff, not_and]
        intro hm
        exact absurd (hb.2 hm) hbc
    · refine ⟨[], by simp [hex], rfl, Or.inr rfl, ?_⟩
      simp only [List.not_mem_nil, false_iff, not_and]
      intro _
      exact hex
  · intro send_param hlen
    obtain ⟨frame, hp, hl, _⟩ := prepare_layout crc16 w.seq send_param hlen
    exact ⟨frame, by simp [send_broadcast, hp], hl⟩

/-- Witness of C12: a worker with an empty registry, a completed send to the broadcast
address, and the announce request "add_me". -/
theorem send_completed_handling_witness :
    example_espnow_task_step esp_crc16_le ⟨[], s_example_espnow_seq⟩
        (Event.send_cb s_example_broadcast_mac 1)
      = some (⟨[], s_example_espnow_seq⟩, [Action.xTaskCreate_send_broadcast]) ∧
    ∃ frame, send_broadcast esp_crc16_le ⟨[], s_example_espnow_seq⟩
        ⟨s_example_broadcast_mac, List.replicate 5 0 ++ add_me⟩
        = some (⟨[], ⟨1, 0⟩⟩, [Action.esp_now_send s_example_broadcast_mac frame]) ∧
      frame.length = 12 :=
  ⟨by decide,
    (send_completed_handling esp_crc16_le ⟨[], s_example_espnow_seq⟩
      s_example_broadcast_mac 1).2 ⟨s_example_broadcast_mac, List.replicate 5 0 ++ add_me⟩
      (by decide)⟩

/-- The receive case is a no-op on a frame accepted as UNICAST whose payload `strcmp`
finds different from all four tokens without reading past the payload buffer. -/
theorem recv_unicast_no_token (crc16 : Nat → List Nat → Nat) (w : Worker)
    (mac_addr data payload : List Nat)
    (hret : (example_espnow_data_parse crc16 data).ret = (EXAMPLE_ESPNOW_DATA_UNICAST : Nat))
    (hpay : (example_espnow_data_parse crc16 data).payload = some payload)
    (hcts : strcmp_eq payload CTS = some false) (hack : strcmp_eq payload ACK = some false)
    (hrts : strcmp_eq payload RTS = some false)
    (hdat : strcmp_eq payload some_data = some false) :
    example_espnow_task_step crc16 w (Event.recv_cb mac_addr data) = some (w, []) := by
  have hlog := log_nil_of_ret_ne crc16 data (by rw [hret]; decide)
  have hne : ¬ (example_espnow_data_parse crc16 data).ret
      = (EXAMPLE_ESPNOW_DATA_BROADCAST : Nat) := by
    rw [hret]; decide
  simp only [example_espnow_task_step, example_espnow_task_recv, if_neg hne, if_pos hret,
    hpay, hlog, Option.getD_some, List.map_nil, hcts, hack, hrts, hdat]
  simp

/-- Unrecognised input that is compared inside its buffer is a no-op: a frame accepted with
a type byte that is neither 0 nor 1, or accepted as UNICAST with a payload that holds a
terminator and reads as a C string other than RTS, CTS, ACK and "some data", leaves the
worker state unchanged and issues no action. -/
theorem unrecognised_input_noop (crc16 : Nat → List Nat → Nat) (w : Worker)
    (mac_addr data : List Nat) :
    (∀ t : Nat, (example_espnow_data_parse crc16 data).ret = (t : Nat) →
      t ≠ EXAMPLE_ESPNOW_DATA_BROADCAST → t ≠ EXAMPLE_ESPNOW_DATA_UNICAST →
      example_espnow_task_step crc16 w (Event.recv_cb mac_addr data) = some (w, [])) ∧
    (∀ payload s : List Nat,
      (example_espnow_data_parse crc16 data).ret = (EXAMPLE_ESPNOW_DATA_UNICAST : Nat) →
      (example_espnow_data_parse crc16 data).payload = some payload →
      c_string payload = some s →
      some s ≠ c_string RTS → some s ≠ c_string CTS → some s ≠ c_string ACK →
      some s ≠ c_string some_data →
      example_espnow_task_step crc16 w (Event.recv_cb mac_addr data) = some (w, [])) := by
  constructor
  · intro t hret h0 h1
    have hlog := log_nil_of_ret_ne crc16 data (by rw [hret]; omega)
    have hn0 : ¬ (example_espnow_data_parse crc16 data).ret
        = (EXAMPLE_ESPNOW_DATA_BROADCAST : Nat) := by
      rw [hret]; exact_mod_cast h0
    have hn1 : ¬ (example_espnow_data_parse crc16 data).ret
        = (EXAMPLE_ESPNOW_DATA_UNICAST : Nat) := by
      rw [hret]; exact_mod_cast h1
    obtain ⟨payload, hpay⟩ := payload_some_of_ret_ne crc16 data (by rw [hret]; omega)
    simp [example_espnow_task_step, example_espnow_task_recv, hpay, if_neg hn0, if_neg hn1,
      hlog]
  · intro payload s hret hpay hs hrts hcts hack hdat
    have e1 : c_string RTS = some [0x52, 0x54, 0x53] := rfl
    have e2 : c_string CTS = some [0x43, 0x54, 0x53] := rfl
    have e3 : c_string ACK = some [0x41, 0x43, 0x4B] := rfl
    have e4 : c_string some_data
        = some [0x73, 0x6F, 0x6D, 0x65, 0x20, 0x64, 0x61, 0x74, 0x61] := rfl
    rw [e1] at hrts
    rw [e2] at hcts
    rw [e3] at hack
    rw [e4] at hdat
    apply recv_unicast_no_token crc16 w mac_addr data payload hret hpay
    · rw [strcmp_eq_of_c_string payload CTS s _ hs e2]
      simpa using hcts
    · rw [strcmp_eq_of_c_string payload ACK s _ hs e3]
      simpa using hack
    · rw [strcmp_eq_of_c_string payload RTS s _ hs e1]
      simpa using hrts
    · rw [strcmp_eq_of_c_string payload some_data s _ hs e4]
      simpa using hdat

set_option maxRecDepth 20000 in
/-- Instances of the no-op on unrecognised input: a frame with type byte 2 and a valid
checksum, and a UNICAST frame with the terminated payload "RT". -/
theorem unrecognised_input_noop_witness :
    example_espnow_task_step esp_crc16_le ⟨[⟨my_peer, true⟩], ⟨1, 4⟩⟩
        (Event.recv_cb my_peer [2, 0, 0, 120, 145, 82, 84, 83, 0])
      = some (⟨[⟨my_peer, true⟩], ⟨1, 4⟩⟩, []) ∧
    example_espnow_task_step esp_crc16_le ⟨[⟨my_peer, true⟩], ⟨1, 4⟩⟩
        (Event.recv_cb my_peer [1, 0, 0, 140, 252, 82, 84, 0])
      = some (⟨[⟨my_peer, true⟩], ⟨1, 4⟩⟩, []) :=
  ⟨(unrecognised_input_noop esp_crc16_le ⟨[⟨my_peer, true⟩], ⟨1, 4⟩⟩ my_peer
      [2, 0, 0, 120, 145, 82, 84, 83, 0]).1 2 (by decide) (by decide) (by decide),
    (unrecognised_input_noop esp_crc16_le ⟨[⟨my_peer, true⟩], ⟨1, 4⟩⟩ my_peer
      [1, 0, 0, 140, 252, 82, 84, 0]).2 [0x52, 0x54, 0] [0x52, 0x54] (by decide) (by decide)
      (by decide) (by decide) (by decide) (by decide) (by decide)⟩

set_option maxRecDepth 20000 in
/-- C13 (failing input): the frame 01 00 00 cc 94 52 54 is accepted as UNICAST with the
two-byte payload "RT", which holds no terminator. The comparisons with "CTS" and "ACK" end
at the first byte; the comparison with "RTS" finds both payload bytes equal and reads the
byte after the payload buffer, so the outcome of the receive case is not determined by the
frame. -/
theorem unterminated_payload_read_past_buffer :
    example_espnow_data_parse esp_crc16_le [1, 0, 0, 204, 148, 82, 84] =
      { ret := (EXAMPLE_ESPNOW_DATA_UNICAST : Nat), seq := some 0,
        payload := some [0x52, 0x54], log := [] } ∧
    c_string [0x52, 0x54] = none ∧
    strcmp_eq [0x52, 0x54] CTS = some false ∧
    strcmp_eq [0x52, 0x54] ACK = some false ∧
    strcmp_eq [0x52, 0x54] RTS = none ∧
    example_espnow_task_step esp_crc16_le ⟨[⟨my_peer, true⟩], ⟨1, 4⟩⟩
        (Event.recv_cb my_peer [1, 0, 0, 204, 148, 82, 84]) = none := by
  decide

/-! ## The handshake on finite heaps -/

/-- A send that goes through takes the bytes of its request and of its frame buffer from the
heap, at least the header and the token. -/
theorem send_token_heap_continues (crc16 : Nat → List Nat → Nat) (sz : Sizes) (w : Worker)
    (heap_free : Nat) (dest token : List Nat) (w1 : Worker) (h1 : Nat) (acts : List Action)
    (h : send_token_heap crc16 sz w heap_free dest token = TaskResult.continues w1 h1 acts) :
    h1 + sz.send_param + (sizeof_example_espnow_data_t + token.length) = heap_free := by
  unfold send_token_heap at h
  dsimp only at h
  split at h
  · exact absurd h (by simp)
  · split at h
    · exact absurd h (by simp)
    · simp only [TaskResult.continues.injEq] at h
      omega

/-- A result that continues after `free(payload)` continued before it. -/
theorem free_payload_continues (n : Nat) (res : TaskResult) (w1 : Worker) (h1 : Nat)
    (acts : List Action) (h : res.free_payload n = TaskResult.continues w1 h1 acts) :
    ∃ h0, res = TaskResult.continues w1 h0 acts ∧ h1 = h0 + n := by
  cases res with
  | continues w0 h0 a0 =>
    simp only [TaskResult.free_payload, TaskResult.continues.injEq] at h
    obtain ⟨rfl, rfl, rfl⟩ := h
    exact ⟨h0, rfl, rfl⟩
  | ended a0 => simp [TaskResult.free_payload] at h
  | undefined => simp [TaskResult.free_payload] at h

/-- A branch on `strcmp` that continues took one of its two sides. -/
theorem of_strcmp_continues (c : Option Bool) (yes no : TaskResult) (w1 : Worker) (h1 : Nat)
    (acts : List Action) (h : TaskResult.of_strcmp c yes no = TaskResult.continues w1 h1 acts) :
    yes = TaskResult.continues w1 h1 acts ∨ no = TaskResult.continues w1 h1 acts := by
  cases c with
  | none => simp [TaskResult.of_strcmp] at h
  | some b =>
    cases b with
    | true => exact Or.inl h
    | false => exact Or.inr h

/-- A reply of the receive case that goes through leaves at least nine bytes fewer free
than there were before the frame arrived. -/
theorem reply_heap_continues (crc16 : Nat → List Nat → Nat) (sz : Sizes) (w : Worker)
    (heap_free payload_len : Nat) (dest token : List Nat) (w1 : Worker) (h1 : Nat)
    (acts : List Action) (hp : payload_len ≤ heap_free) (htok : 4 ≤ token.length)
    (h : (send_token_heap crc16 sz w (heap_free - payload_len) dest token).free_payload
      payload_len = TaskResult.continues w1 h1 acts) :
    h1 + 9 ≤ heap_free := by
  obtain ⟨h0, hres, rfl⟩ := free_payload_continues _ _ _ _ _ h
  have := send_token_heap_continues crc16 sz w _ dest token w1 h0 acts hres
  unfold sizeof_example_espnow_data_t at this
  omega

/-- A receive case that goes on never has more free bytes than before, and has at least
nine fewer when it sent a frame. -/
theorem recv_heap_continues (crc16 : Nat → List Nat → Nat) (sz : Sizes) (w : Worker)
    (heap_free : Nat) (mac_addr data : List Nat) (w1 : Worker) (h1 : Nat) (acts : List Action)
    (h : example_espnow_task_recv_heap crc16 sz w heap_free mac_addr data
      = TaskResult.continues w1 h1 acts) :
    h1 ≤ heap_free ∧ (sends acts ≠ [] → h1 + 9 ≤ heap_free) := by
  unfold example_espnow_task_recv_heap at h
  dsimp only at h
  split at h
  · exact absurd h (by simp)
  · split at h
    · simp only [TaskResult.continues.injEq] at h
      obtain ⟨_, rfl, rfl⟩ := h
      exact ⟨Nat.le_refl _, fun hs => absurd rfl hs⟩
    · rename_i hpl
      have hp : (data.length + 256 - sizeof_example_espnow_data_t) % 256 ≤ heap_free := by
        omega
      have hdone : ∀ res : TaskResult, res = TaskResult.continues w heap_free [] →
          res = TaskResult.continues w1 h1 acts →
          h1 ≤ heap_free ∧ (sends acts ≠ [] → h1 + 9 ≤ heap_free) := by
        intro res h0 h1'
        rw [h0] at h1'
        simp only [TaskResult.continues.injEq] at h1'
        obtain ⟨_, rfl, rfl⟩ := h1'
        exact ⟨Nat.le_refl _, fun hs => absurd rfl hs⟩
      have hreply : ∀ (w0 : Worker) (token : List Nat), 4 ≤ token.length →
          (send_token_heap crc16 sz w0
            (heap_free - (data.length + 256 - sizeof_example_espnow_data_t) % 256)
            mac_addr token).free_payload
            ((data.length + 256 - sizeof_example_espnow_data_t) % 256)
            = TaskResult.continues w1 h1 acts →
          h1 ≤ heap_free ∧ (sends acts ≠ [] → h1 + 9 ≤ heap_free) := by
        intro w0 token htok hr
        have := reply_heap_continues crc16 sz w0 heap_free _ mac_addr token w1 h1 acts hp
          htok hr
        exact ⟨by omega, fun _ => this⟩
      split at h
      · split at h
        · exact absurd h (by simp)
        · exact hreply _ RTS (by decide) h
      · split at h
        · rcases of_strcmp_continues _ _ _ _ _ _ h with h | h
          · exact hreply _ some_data (by decide) h
          · rcases of_strcmp_continues _ _ _ _ _ _ h with h | h
            · exact hreply _ RTS (by decide) h
            · rcases of_strcmp_continues _ _ _ _ _ _ h with h | h
              · exact hreply _ CTS (by decide) h
              · rcases of_strcmp_continues _ _ _ _ _ _ h with h | h
                · exact hreply _ ACK (by decide) h
                · exact hdone _ rfl h
        · exact hdone _ rfl h

/-- Every delivery that puts a new frame on the link costs the two heaps together at least
nine bytes. -/
theorem link_deliver_heap_lt (crc16 : Nat → List Nat → Nat) (sz : Sizes)
    (addr_a addr_b : List Nat) (l l1 : HeapLink)
    (h : link_deliver_heap crc16 sz addr_a addr_b l = some l1) :
    l1.heap_a + l1.heap_b + 9 ≤ l.heap_a + l.heap_b := by
  unfold link_deliver_heap at h
  split at h
  · split at h
    · rename_i b1 h1 acts hrecv
      split at h
      · rename_i d f rest hs
        simp only [Option.some.injEq] at h
        subst h
        have := (recv_heap_continues crc16 sz _ _ _ _ b1 h1 acts hrecv).2
          (by rw [hs]; simp)
        simp only
        omega
      · exact absurd h (by simp)
    · exact absurd h (by simp)
  · split at h
    · rename_i a1 h1 acts hrecv
      split at h
      · rename_i d f rest hs
        simp only [Option.some.injEq] at h
        subst h
        have := (recv_heap_continues crc16 sz _ _ _ _ a1 h1 acts hrecv).2
          (by rw [hs]; simp)
        simp only
        omega
      · exact absurd h (by simp)
    · exact absurd h (by simp)

/-- After `n` deliveries the two heaps together have lost at least `9 * n` bytes. -/
theorem link_run_heap_le (crc16 : Nat → List Nat → Nat) (sz : Sizes)
    (addr_a addr_b : List Nat) (n : Nat) (l l1 : HeapLink)
    (h : link_run_heap crc16 sz addr_a addr_b n l = some l1) :
    l1.heap_a + l1.heap_b + 9 * n ≤ l.heap_a + l.heap_b := by
  induction n generalizing l1 with
  | zero =>
    simp only [link_run_heap, Option.some.injEq] at h
    subst h
    omega
  | succ n ih =>
    simp only [link_run_heap] at h
    split at h
    · rename_i l2 hrun
      have h2 := ih l2 hrun
      have h3 := link_deliver_heap_lt crc16 sz addr_a addr_b l2 l1 h
      omega
    · exact absurd h (by simp)

/-- On finite heaps the handshake comes to an end: whatever the checksum routine, the sizes
of the allocated structures, the addresses and the state of the link, the frames stop within
`(heap_a + heap_b) / 9 + 1` deliveries, because no worker frees the request and the frame
buffer of a send. -/
theorem handshake_ends_on_finite_heap (crc16 : Nat → List Nat → Nat) (sz : Sizes)
    (addr_a addr_b : List Nat) (l : HeapLink) :
    ∃ n, n ≤ (l.heap_a + l.heap_b) / 9 + 1 ∧
      link_run_heap crc16 sz addr_a addr_b n l = none := by
  refine ⟨(l.heap_a + l.heap_b) / 9 + 1, Nat.le_refl _, ?_⟩
  cases hrun : link_run_heap crc16 sz addr_a addr_b ((l.heap_a + l.heap_b) / 9 + 1) l with
  | none => rfl
  | some l1 =>
    have := link_run_heap_le crc16 sz addr_a addr_b _ l l1 hrun
    omega

/-- The receive case on a finite heap agrees with the receive case where allocations
succeed: when the payload copy fits and the case goes on, worker state and actions are
those of `example_espnow_task_step`. -/
theorem recv_heap_agrees (crc16 : Nat → List Nat → Nat) (sz : Sizes) (w : Worker)
    (heap_free : Nat) (mac_addr data : List Nat) (w1 : Worker) (h1 : Nat) (acts : List Action)
    (hfit : (data.length + 256 - sizeof_example_espnow_data_t) % 256 ≤ heap_free)
    (h : example_espnow_task_recv_heap crc16 sz w heap_free mac_addr data
      = TaskResult.continues w1 h1 acts) :
    example_espnow_task_step crc16 w (Event.recv_cb mac_addr data) = some (w1, acts) := by
  unfold example_espnow_task_recv_heap at h
  dsimp only at h
  split at h
  · exact absurd h (by simp)
  · rename_i hlen
    have hlen' : sizeof_example_espnow_data_t ≤ data.length := by omega
    have hlog := (parse_of_header crc16 data hlen').1
    have hpay : ∃ payload, (example_espnow_data_parse crc16 data).payload = some payload := by
      simp only [example_espnow_data_parse, if_neg hlen]
      split <;> exact ⟨_, rfl⟩
    obtain ⟨payload, hpay⟩ := hpay
    have hsend : ∀ (w0 : Worker) (token : List Nat),
        (send_token_heap crc16 sz w0
          (heap_free - (data.length + 256 - sizeof_example_espnow_data_t) % 256)
          mac_addr token).free_payload
          ((data.length + 256 - sizeof_example_espnow_data_t) % 256)
          = TaskResult.continues w1 h1 acts →
        send_token crc16 w0 mac_addr token = (w1, acts) := by
      intro w0 token hr
      obtain ⟨h0, hres, _⟩ := free_payload_continues _ _ _ _ _ hr
      unfold send_token_heap at hres
      dsimp only at hres
      split at hres
      · exact absurd hres (by simp)
      · split at hres
        · exact absurd hres (by simp)
        · simp only [TaskResult.continues.injEq] at hres
          exact Prod.ext hres.1 hres.2.2
    split at h
    · exact absurd hfit (by omega)
    · simp only [example_espnow_task_step, example_espnow_task_recv, hpay, hlog, List.map_nil,
        List.nil_append]
      rw [hpay] at h
      simp only [Option.getD_some] at h
      split at h
      · rename_i hb
        rw [if_pos hb]
        split at h
        · exact absurd h (by simp)
        · rename_i peers1 hadd
          have hp1 : peers1 = add_peer w.peers mac_addr true := by
            unfold add_peer_heap at hadd
            split at hadd
            · exact absurd hadd (by simp)
            · simpa using hadd.symm
          subst hp1
          rw [hsend _ RTS h]
      · rename_i hb
        rw [if_neg hb]
        split at h
        · rename_i hu
          rw [if_pos hu]
          cases hc1 : strcmp_eq payload CTS with
          | none => rw [hc1] at h; simp [TaskResult.of_strcmp] at h
          | some b1 =>
            rw [hc1] at h
            cases b1 with
            | true =>
              simp only [TaskResult.of_strcmp] at h
              simp [hsend _ some_data h]
            | false =>
              simp only [TaskResult.of_strcmp] at h
              cases hc2 : strcmp_eq payload ACK with
              | none => rw [hc2] at h; simp at h
              | some b2 =>
                rw [hc2] at h
                cases b2 with
                | true =>
                  simp only at h
                  simp [hsend _ RTS h]
                | false =>
                  simp only at h
                  cases hc3 : strcmp_eq payload RTS with
                  | none => rw [hc3] at h; simp at h
                  | some b3 =>
                    rw [hc3] at h
                    cases b3 with
                    | true =>
                      simp only at h
                      simp [hsend _ CTS h]
                    | false =>
                      simp only at h
                      cases hc4 : strcmp_eq payload some_data with
                      | none => rw [hc4] at h; simp at h
                      | some b4 =>
                        rw [hc4] at h
                        cases b4 with
                        | true =>
                          simp only at h
                          simp [hsend _ ACK h]
                        | false =>
                          simp only [TaskResult.continues.injEq] at h
                          obtain ⟨rfl, _, rfl⟩ := h
                          simp
        · rename_i hu
          rw [if_neg hu]
          simp only [TaskResult.continues.injEq] at h
          obtain ⟨rfl, _, rfl⟩ := h
          rfl

set_option maxRecDepth 100000 in
/-- C7 (failing input): two workers started from the state initialisation leaves, A the
initiating side with the address 02:00:00:00:00:01 and B with the address `my_peer`, each
with 64 free bytes of heap after startup, a request of 28 bytes and a peer entry of 36.
RTS, CTS and "some data" go over the link; the replies of B and A took 37 and 43 bytes that
are never freed, so when "some data" arrives B has 27 bytes free, the allocation of its
next request fails, B logs "Malloc send parameter fail" and returns without sending ACK:
there is no fourth frame. -/
theorem handshake_ends_on_small_heap :
    link_start esp_crc16_le (example_espnow_init esp_crc16_le).1
        (example_espnow_init esp_crc16_le).1
      = some { a := ⟨[⟨s_example_broadcast_mac, false⟩, ⟨my_peer, true⟩], ⟨1, 1⟩⟩,
               b := ⟨[⟨s_example_broadcast_mac, false⟩, ⟨my_peer, true⟩], ⟨1, 0⟩⟩,
               to_b := true, frame := [1, 0, 0, 127, 71, 82, 84, 83, 0] } ∧
    link_run_heap esp_crc16_le ⟨28, 36⟩ [2, 0, 0, 0, 0, 1] my_peer 2
        { link := { a := ⟨[⟨s_example_broadcast_mac, false⟩, ⟨my_peer, true⟩], ⟨1, 1⟩⟩,
                    b := ⟨[⟨s_example_broadcast_mac, false⟩, ⟨my_peer, true⟩], ⟨1, 0⟩⟩,
                    to_b := true, frame := [1, 0, 0, 127, 71, 82, 84, 83, 0] },
          heap_a := 64, heap_b := 64 }
      = some
        { link := { a := ⟨[⟨s_example_broadcast_mac, false⟩, ⟨my_peer, true⟩], ⟨1, 2⟩⟩,
                    b := ⟨[⟨s_example_broadcast_mac, false⟩, ⟨my_peer, true⟩], ⟨1, 1⟩⟩,
                    to_b := true,
                    frame := [1, 1, 0, 234, 59, 115, 111, 109, 101, 32, 100, 97, 116, 97, 0] },
          heap_a := 21, heap_b := 27 } ∧
    (example_espnow_data_parse esp_crc16_le
        [1, 1, 0, 234, 59, 115, 111, 109, 101, 32, 100, 97, 116, 97, 0]).ret
      = (EXAMPLE_ESPNOW_DATA_UNICAST : Nat) ∧
    (example_espnow_data_parse esp_crc16_le
        [1, 1, 0, 234, 59, 115, 111, 109, 101, 32, 100, 97, 116, 97, 0]).payload
      = some some_data ∧
    example_espnow_task_recv_heap esp_crc16_le ⟨28, 36⟩
        ⟨[⟨s_example_broadcast_mac, false⟩, ⟨my_peer, true⟩], ⟨1, 1⟩⟩ 27 [2, 0, 0, 0, 0, 1]
        [1, 1, 0, 234, 59, 115, 111, 109, 101, 32, 100, 97, 116, 97, 0]
      = TaskResult.ended [Action.log LogLine.malloc_send_param_fail] ∧
    link_run_heap esp_crc16_le ⟨28, 36⟩ [2, 0, 0, 0, 0, 1] my_peer 3
        { link := { a := ⟨[⟨s_example_broadcast_mac, false⟩, ⟨my_peer, true⟩], ⟨1, 1⟩⟩,
                    b := ⟨[⟨s_example_broadcast_mac, false⟩, ⟨my_peer, true⟩], ⟨1, 0⟩⟩,
                    to_b := true, frame := [1, 0, 0, 127, 71, 82, 84, 83, 0] },
          heap_a := 64, heap_b := 64 }
      = none := by
  decide

end Espnow
